import Mathlib

/-!
Verification of the re-simulation / projection engine of the Plannink backend
(`services/python.service.js`).  JS numbers are modelled as rationals, calendar
dates as integers (day numbers), month keys as integers, and JS objects used as
maps as association lists.  JS truthiness tests on numeric values (`x ? a : b`,
`x || d`) are modelled as explicit `≠ 0` tests on present values.
-/

namespace Plannink

/-- `toFixed(2)` followed by `parseFloat`: round to 2 decimal places. -/
def round2 (x : ℚ) : ℚ := (round (100 * x) : ℤ) / 100

/-- One pending order / alert entry (`PEDIDOS_POR_LLEGAR` items and
`alertas_y_pedidos` items share their shape in the source). -/
structure Pedido where
  unidades : ℚ
  fecha_arribo : Option ℤ
  fecha_alerta : Option ℤ := none
  lead_time_especifico : Option ℤ := none
  isManual : Bool := false
  cajas_pedir : ℤ := 0
deriving DecidableEq, Repr

/-- `indicador_riesgo` values. -/
inductive Riesgo
  | Bajo
  | Medio
  | Alto
deriving DecidableEq, Repr

/-- `stock_seguridad_source` values. -/
inductive SSource
  | Manual
  | Calculado
deriving DecidableEq, Repr

/-- One entry of `stock_diario_proyectado`. -/
structure DailyEntry where
  fecha : ℤ
  stock_proyectado : ℚ
  unidades_en_transito : ℚ
  stock_total_proyectado : ℚ
deriving DecidableEq, Repr

/-- One monthly projection (`PROYECCIONES` item). -/
structure Projection where
  mes : ℤ
  fecha_inicio_mes : ℤ
  fecha_fin_mes : ℤ
  consumo_diario : ℚ
  stock_inicial_mes : ℚ := 0
  stock_proyectado_mes : ℚ := 0
  unidades_en_transito : ℚ := 0
  stock_total_proyectado : ℚ := 0
  stock_seguridad : ℚ := 0
  lead_time_days : ℤ := 0
  punto_reorden : ℚ := 0
  stock_seguridad_source : SSource := SSource.Calculado
  indicador_riesgo : Riesgo := Riesgo.Bajo
  stock_diario_proyectado : List DailyEntry := []
  alertas_y_pedidos : List Pedido := []
deriving DecidableEq, Repr

/-- `CONFIGURACION`: `OVERRIDES.SAFETY_STOCK` and `OVERRIDES.LEAD_TIME_DAYS`
are JS objects keyed by month key, modelled as association lists. -/
structure Config where
  LEAD_TIME_DAYS : Option ℤ := none
  NIVEL_SERVICIO : Option ℚ := none
  SAFETY_STOCK : Option ℚ := none
  SAFETY_STOCK_SOURCE_MANUAL : Bool := false
  OV_SAFETY_STOCK : List (ℤ × ℚ) := []
  OV_LEAD_TIME : List (ℤ × ℤ) := []
deriving DecidableEq, Repr

/-- A product of the analysis document. -/
structure Product where
  CODIGO : ℤ := 0
  STOCK_TOTAL : ℚ
  CONSUMO_DIARIO : ℚ := 0
  SIGMA_D : Option ℚ := none
  FECHA_INICIAL : ℤ
  UNIDADES_POR_CAJA : ℚ := 0
  CONFIGURACION : Config := {}
  PROYECCIONES : List Projection := []
  PEDIDOS_POR_LLEGAR : List Pedido := []
  STOCK_SEGURIDAD : ℚ := 0
  PUNTO_REORDEN : ℚ := 0
  DEFICIT : ℚ := 0
  CAJAS_A_PEDIR : ℤ := 0
  UNIDADES_A_PEDIR : ℚ := 0
deriving DecidableEq, Repr

/-- `this.defaultLeadTimeDays = 20`. -/
def defaultLeadTimeDays : ℤ := 20

/-- `product.CONFIGURACION.LEAD_TIME_DAYS || this.defaultLeadTimeDays`:
a missing or zero configured lead time falls back to the system default. -/
def effLeadTimeDefault (c : Config) : ℤ :=
  match c.LEAD_TIME_DAYS with
  | some v => if v ≠ 0 then v else defaultLeadTimeDays
  | none => defaultLeadTimeDays

/-- `_getEffectiveLeadTime(product, monthKey)`.  The per-month override is
used only when present and truthy (nonzero). -/
def _getEffectiveLeadTime (c : Config) (monthKey : Option ℤ) : ℤ :=
  match monthKey with
  | some k =>
      match c.OV_LEAD_TIME.lookup k with
      | some v => if v ≠ 0 then v else effLeadTimeDefault c
      | none => effLeadTimeDefault c
  | none => effLeadTimeDefault c

/-- `_calculateZFactor(serviceLevel = 99.99)`: the inverse standard-normal CDF
`jStat.normal.inv` is an external library function, taken as a parameter `z`. -/
def _calculateZFactor (z : ℚ → ℚ) (serviceLevel : Option ℚ) : ℚ :=
  z ((serviceLevel.getD (9999 / 100)) / 100)

/-- `_calculateDynamicSafetyStock(product, leadTime)`;  `Math.sqrt` is taken
as a parameter `sqrtFn`. -/
def _calculateDynamicSafetyStock (z sqrtFn : ℚ → ℚ) (p : Product) (leadTime : ℤ) : ℚ :=
  _calculateZFactor z p.CONFIGURACION.NIVEL_SERVICIO * (p.SIGMA_D.getD 0) * sqrtFn (leadTime : ℚ)

/-- Truthiness of `CONFIGURACION.OVERRIDES?.SAFETY_STOCK?.[monthKey]`. -/
def ssOverrideTruthy (c : Config) (k : ℤ) : Bool :=
  match c.OV_SAFETY_STOCK.lookup k with
  | some v => v != 0
  | none => false

/-- `_getEffectiveSafetyStock(product, monthKey)`. -/
def _getEffectiveSafetyStock (z sqrtFn : ℚ → ℚ) (p : Product) (monthKey : Option ℤ) : ℚ :=
  match monthKey with
  | some k =>
      match p.CONFIGURACION.OV_SAFETY_STOCK.lookup k with
      | some v =>
          if v ≠ 0 then v
          else
            if p.CONFIGURACION.SAFETY_STOCK_SOURCE_MANUAL ∧ p.CONFIGURACION.SAFETY_STOCK.isSome then
              p.CONFIGURACION.SAFETY_STOCK.getD 0
            else _calculateDynamicSafetyStock z sqrtFn p (effLeadTimeDefault p.CONFIGURACION)
      | none =>
          if p.CONFIGURACION.SAFETY_STOCK_SOURCE_MANUAL ∧ p.CONFIGURACION.SAFETY_STOCK.isSome then
            p.CONFIGURACION.SAFETY_STOCK.getD 0
          else _calculateDynamicSafetyStock z sqrtFn p (effLeadTimeDefault p.CONFIGURACION)
  | none =>
      if p.CONFIGURACION.SAFETY_STOCK_SOURCE_MANUAL ∧ p.CONFIGURACION.SAFETY_STOCK.isSome then
        p.CONFIGURACION.SAFETY_STOCK.getD 0
      else _calculateDynamicSafetyStock z sqrtFn p (effLeadTimeDefault p.CONFIGURACION)

/-- The inclusive day range `[a, b]` walked by the simulation loops. -/
def dayRange (a b : ℤ) : List ℤ :=
  (List.range (b + 1 - a).toNat).map (fun (i : ℕ) => a + (i : ℤ))

/-- `(product.PEDIDOS_POR_LLEGAR || []).filter(p => p.isManual && p.fecha_arribo)`. -/
def manualPedidos (p : Product) : List Pedido :=
  p.PEDIDOS_POR_LLEGAR.filter (fun o => o.isManual && o.fecha_arribo.isSome)

/-- Units arriving on day `d`.  The source removes each matched order from a
working copy as it arrives; since every day is visited once per pass, this is
the sum of the units of the orders whose arrival date is `d`. -/
def arrivalsOn (orders : List Pedido) (d : ℤ) : ℚ :=
  ((orders.filter (fun o => o.fecha_arribo == some d)).map (fun o => o.unidades)).sum

/-- State of the `_regenerateAlertsAndOrders` forward simulation. -/
structure RegenState where
  fis : ℚ
  tot : ℚ
  alerts : List Pedido
deriving DecidableEq, Repr

/-- `cajasAPedir` of the regenerator: ceiling of
`deficit = reorderPoint - totalStock + dailyConsumption * leadTime` over
units-per-box, zero when units-per-box is not positive. -/
def regenCajas (p : Product) (proj : Projection) (tot : ℚ) (lt : ℤ) : ℤ :=
  if 0 < p.UNIDADES_POR_CAJA then
    ⌈(proj.punto_reorden - tot + proj.consumo_diario * (lt : ℚ)) / p.UNIDADES_POR_CAJA⌉
  else 0

/-- `unidadesAPedir = cajasAPedir * UNIDADES_POR_CAJA`. -/
def regenUnits (p : Product) (proj : Projection) (tot : ℚ) (lt : ℤ) : ℚ :=
  (regenCajas p proj tot lt : ℚ) * p.UNIDADES_POR_CAJA

/-- The alert object emitted by the regenerator on day `d`. -/
def regenAlert (p : Product) (proj : Projection) (tot : ℚ) (lt : ℤ) (d : ℤ) : Pedido :=
  { unidades := round2 (regenUnits p proj tot lt),
    fecha_arribo := some (d + lt),
    fecha_alerta := some d,
    lead_time_especifico := some lt,
    cajas_pedir := regenCajas p proj tot lt }

/-- One day of the `_regenerateAlertsAndOrders` loop (`monthKeyOf` models the
calendar mapping from a date to its `"MMM-YYYY"` month key). -/
def regenStep (monthKeyOf : ℤ → ℤ) (p : Product) (st : RegenState) (d : ℤ) : RegenState :=
  match p.PROYECCIONES.find? (fun pr => pr.mes == monthKeyOf d) with
  | none => st
  | some proj =>
      let recibidos := arrivalsOn (manualPedidos p) d
      let fis := st.fis + recibidos
      let tot := st.tot + recibidos
      let afterAlert : ℚ × List Pedido :=
        if tot ≤ proj.punto_reorden then
          let lt := _getEffectiveLeadTime p.CONFIGURACION (some (monthKeyOf d))
          let unidadesAPedir : ℚ := regenUnits p proj tot lt
          if 0 < unidadesAPedir then
            (tot + unidadesAPedir, st.alerts ++ [regenAlert p proj tot lt d])
          else (tot, st.alerts)
        else (tot, st.alerts)
      { fis := max 0 (fis - proj.consumo_diario),
        tot := max 0 (afterAlert.1 - proj.consumo_diario),
        alerts := afterAlert.2 }

/-- Whether the regenerator emits an alert on a day with total stock `tot`
(after arrivals): the reorder point is reached and the computed units to
order are positive. -/
def regenFires (p : Product) (proj : Projection) (tot : ℚ) (lt : ℤ) : Prop :=
  tot ≤ proj.punto_reorden ∧ 0 < regenUnits p proj tot lt

instance (p : Product) (proj : Projection) (tot : ℚ) (lt : ℤ) :
    Decidable (regenFires p proj tot lt) := by
  unfold regenFires
  infer_instance

/-- `_regenerateAlertsAndOrders(product)`. -/
def _regenerateAlertsAndOrders (monthKeyOf : ℤ → ℤ) (p : Product) : List Pedido :=
  match p.PROYECCIONES.getLast? with
  | none => []
  | some lastP =>
      ((dayRange p.FECHA_INICIAL lastP.fecha_fin_mes).foldl (regenStep monthKeyOf p)
        { fis := p.STOCK_TOTAL, tot := p.STOCK_TOTAL, alerts := [] }).alerts

/-- `_recalculateArrivalDate(alert)`. -/
def _recalculateArrivalDate (o : Pedido) : Option ℤ :=
  match o.fecha_alerta, o.lead_time_especifico with
  | some fa, some lt => some (fa + lt)
  | _, _ => o.fecha_arribo

/-- Stable insertion of an order into an arrival-sorted list: the new order
goes after every order whose arrival key is `≤` its own. -/
def insertByArrival (a : Pedido) : List Pedido → List Pedido
  | [] => [a]
  | b :: l =>
      if b.fecha_arribo.getD 0 ≤ a.fecha_arribo.getD 0 then b :: insertByArrival a l
      else a :: b :: l

/-- The stable sort by ascending arrival date
(`sort((a, b) => new Date(a.fecha_arribo) - new Date(b.fecha_arribo))`;
JS array sort is stable). -/
def sortByArrival (l : List Pedido) : List Pedido :=
  l.foldl (fun acc a => insertByArrival a acc) []

/-- The merged order list of `_recalculateProjections`: manual pending orders
plus all projections' alerts, arrival dates recomputed, sorted by arrival. -/
def mergedOrders (p : Product) : List Pedido :=
  sortByArrival
    ((manualPedidos p ++ p.PROYECCIONES.flatMap (fun pr => pr.alertas_y_pedidos)).map
      (fun o => { o with fecha_arribo := _recalculateArrivalDate o }))

/-- The transit window start of an order:
`pedido.fecha_alerta ? fecha_alerta : product.FECHA_INICIAL`. -/
def transitStart (p : Product) (o : Pedido) : ℤ := o.fecha_alerta.getD p.FECHA_INICIAL

/-- Add one order's units to the per-day in-transit map on the days of
`[transitStart, arrival)` that exist in the map (`days`). -/
def addTransit (lo hi : ℤ) (days : List ℤ) (u : ℚ) (m : ℤ → ℚ) : ℤ → ℚ :=
  fun d => if lo ≤ d ∧ d < hi ∧ d ∈ days then m d + u else m d

/-- The `unidadesEnTransitoPorFecha` map of `_recalculateProjections`,
initialized to 0 on every day of the horizon. -/
def buildTransit (p : Product) (days : List ℤ) : ℤ → ℚ :=
  (mergedOrders p).foldl
    (fun m o =>
      match o.fecha_arribo with
      | none => m
      | some arr => addTransit (transitStart p o) arr days o.unidades m)
    (fun _ => 0)

/-- One day of the per-month daily walk of `_recalculateProjections`. -/
def simDayStep (orders : List Pedido) (transit : ℤ → ℚ) (consumo : ℚ)
    (st : ℚ × List DailyEntry) (d : ℤ) : ℚ × List DailyEntry :=
  let recibidos := arrivalsOn orders d
  let s := max 0 (st.1 + recibidos - consumo)
  (s, st.2 ++ [{ fecha := d,
                 stock_proyectado := round2 s,
                 unidades_en_transito := round2 (transit d),
                 stock_total_proyectado := round2 (s + transit d) }])

/-- The daily walk of one month, seeded from that month's starting stock. -/
def simulateMonth (orders : List Pedido) (transit : ℤ → ℚ) (proj : Projection)
    (inicial : ℚ) : ℚ × List DailyEntry :=
  (dayRange proj.fecha_inicio_mes proj.fecha_fin_mes).foldl
    (simDayStep orders transit proj.consumo_diario) (inicial, [])

/-- `_updateMonthlyProjectionTotals(projection, ultimoDia, product)`. -/
def _updateMonthlyProjectionTotals (z sqrtFn : ℚ → ℚ) (p : Product) (proj : Projection)
    (ultimo : DailyEntry) : Projection :=
  let lt := _getEffectiveLeadTime p.CONFIGURACION (some proj.mes)
  let ss := _getEffectiveSafetyStock z sqrtFn p (some proj.mes)
  let rop := proj.consumo_diario * (lt : ℚ) + ss
  { proj with
    stock_proyectado_mes := ultimo.stock_proyectado,
    unidades_en_transito := ultimo.unidades_en_transito,
    stock_total_proyectado := ultimo.stock_total_proyectado,
    stock_seguridad := round2 ss,
    punto_reorden := round2 rop,
    stock_seguridad_source :=
      if ssOverrideTruthy p.CONFIGURACION proj.mes then SSource.Manual else SSource.Calculado,
    indicador_riesgo :=
      if rop < ultimo.stock_proyectado then Riesgo.Bajo
      else if ss < ultimo.stock_proyectado then Riesgo.Medio
      else Riesgo.Alto }

/-- One month of the `_recalculateProjections` loop: reset and refill the
daily trajectory, then update the monthly totals from the last simulated day
(a month with no simulated days keeps its stale summary fields, as in the
source). -/
def recalcOne (z sqrtFn : ℚ → ℚ) (p : Product) (orders : List Pedido) (transit : ℤ → ℚ)
    (inicial : ℚ) (proj : Projection) : Projection :=
  let r := simulateMonth orders transit proj inicial
  let base := { proj with stock_inicial_mes := inicial, stock_diario_proyectado := r.2 }
  match r.2.getLast? with
  | none => base
  | some ultimo => _updateMonthlyProjectionTotals z sqrtFn p base ultimo

/-- The month loop of `_recalculateProjections`: each month starts from the
previous month's (2-decimal-rounded) ending stock, the first from the value
passed in (the product's total stock). -/
def recalcAux (z sqrtFn : ℚ → ℚ) (p : Product) (orders : List Pedido) (transit : ℤ → ℚ) :
    ℚ → List Projection → List Projection
  | _, [] => []
  | inicial, proj :: rest =>
      let updated := recalcOne z sqrtFn p orders transit inicial proj
      updated :: recalcAux z sqrtFn p orders transit (round2 updated.stock_proyectado_mes) rest

/-- The horizon in-transit map of `_recalculateProjections` (an empty
projection list gives an empty horizon and an all-zero map). -/
def recalcTransit (p : Product) : ℤ → ℚ :=
  match p.PROYECCIONES.getLast? with
  | none => fun _ => 0
  | some lastP => buildTransit p (dayRange p.FECHA_INICIAL lastP.fecha_fin_mes)

/-- `_recalculateProjections(product)`. -/
def _recalculateProjections (z sqrtFn : ℚ → ℚ) (p : Product) : Product :=
  let projs := recalcAux z sqrtFn p (mergedOrders p) (recalcTransit p) p.STOCK_TOTAL
    p.PROYECCIONES
  { p with PROYECCIONES := projs }

/-- `_updateMainProductMetrics(product)`. -/
def _updateMainProductMetrics (z sqrtFn : ℚ → ℚ) (p : Product) : Product :=
  let defaultLT := effLeadTimeDefault p.CONFIGURACION
  let ss := _getEffectiveSafetyStock z sqrtFn p none
  let rop := p.CONSUMO_DIARIO * (defaultLT : ℚ) + ss
  let deficit := max (rop - p.STOCK_TOTAL) 0
  let cajas : ℤ := if 0 < p.UNIDADES_POR_CAJA then ⌈deficit / p.UNIDADES_POR_CAJA⌉ else 0
  { p with
    STOCK_SEGURIDAD := ss,
    PUNTO_REORDEN := rop,
    DEFICIT := deficit,
    CAJAS_A_PEDIR := cajas,
    UNIDADES_A_PEDIR := (cajas : ℚ) * p.UNIDADES_POR_CAJA }

/-- The per-projection effective-parameter refresh of
`_applyOverrideAndRecalculate` (the `PROYECCIONES.forEach` block). -/
def applyEffectiveParams (z sqrtFn : ℚ → ℚ) (p : Product) : Product :=
  { p with PROYECCIONES := p.PROYECCIONES.map (fun proj =>
      let ss := _getEffectiveSafetyStock z sqrtFn p (some proj.mes)
      let lt := _getEffectiveLeadTime p.CONFIGURACION (some proj.mes)
      { proj with
        stock_seguridad := round2 ss,
        lead_time_days := lt,
        punto_reorden := round2 (proj.consumo_diario * (lt : ℚ) + ss),
        stock_seguridad_source :=
          if ssOverrideTruthy p.CONFIGURACION proj.mes then SSource.Manual
          else SSource.Calculado }) }

/-- `PROYECCIONES.forEach(p => p.alertas_y_pedidos = [])`. -/
def clearAlerts (p : Product) : Product :=
  { p with PROYECCIONES := p.PROYECCIONES.map (fun proj => { proj with alertas_y_pedidos := [] }) }

/-- Attach one regenerated alert to the first projection whose month key
matches the alert's month (`PROYECCIONES.find(p => p.mes === alertMonthKey)`). -/
def attachFirst : List Projection → ℤ → Pedido → List Projection
  | [], _, _ => []
  | proj :: rest, k, a =>
      if proj.mes == k then
        { proj with alertas_y_pedidos := proj.alertas_y_pedidos ++ [a] } :: rest
      else proj :: attachFirst rest k a

/-- Attach one alert by its alert date's month; an alert without a date is
dropped with a warning in the source. -/
def attachAlert (monthKeyOf : ℤ → ℤ) (projs : List Projection) (a : Pedido) : List Projection :=
  match a.fecha_alerta with
  | none => projs
  | some fa => attachFirst projs (monthKeyOf fa) a

/-- The alert-regeneration phase of `_applyOverrideAndRecalculate`: clear all
per-month alerts, regenerate, reattach each new alert to its month. -/
def regenPhase (monthKeyOf : ℤ → ℤ) (p : Product) : Product :=
  let cleared := clearAlerts p
  let newAlerts := _regenerateAlertsAndOrders monthKeyOf cleared
  { cleared with
    PROYECCIONES := newAlerts.foldl (fun projs a => attachAlert monthKeyOf projs a)
      cleared.PROYECCIONES }

/-- The pure recomputation pipeline of `_applyOverrideAndRecalculate`, run on
the product returned by the override's update function. -/
def overridePipeline (monthKeyOf : ℤ → ℤ) (z sqrtFn : ℚ → ℚ) (regenerateAlerts : Bool)
    (p : Product) : Product :=
  let p1 := applyEffectiveParams z sqrtFn p
  let p2 := if regenerateAlerts then regenPhase monthKeyOf p1 else p1
  _updateMainProductMetrics z sqrtFn (_recalculateProjections z sqrtFn p2)

/-- Write one key of a JS-object-as-map (`obj[key] = value`). -/
def setOv {β : Type} (l : List (ℤ × β)) (k : ℤ) (v : β) : List (ℤ × β) :=
  if (l.lookup k).isSome then l.map (fun kv => if kv.1 == k then (k, v) else kv)
  else l ++ [(k, v)]

/-- `_findProductIndex(predictions, productCode)`. -/
def _findProductIdx (preds : List Product) (code : ℤ) : Option ℕ :=
  preds.findIdx? (fun q => q.CODIGO == code)

/-- `_findAlert(product, alertId)` succeeds: an alert whose `fecha_alerta`
equals the id exists somewhere in the product's projections. -/
def alertExists (projs : List Projection) (alertId : ℤ) : Bool :=
  projs.any (fun pr => pr.alertas_y_pedidos.any (fun a => a.fecha_alerta == some alertId))

/-- Apply `f` to the first alert with the given id inside one month's list. -/
def updFirstPedido : List Pedido → ℤ → (Pedido → Pedido) → List Pedido
  | [], _, _ => []
  | a :: rest, aid, f =>
      if a.fecha_alerta == some aid then f a :: rest else a :: updFirstPedido rest aid f

/-- Apply `f` to the first matching alert across the projections, as
`_findAlert` returns the first match and the caller mutates it in place. -/
def updateFirstAlert : List Projection → ℤ → (Pedido → Pedido) → List Projection
  | [], _, _ => []
  | pr :: rest, aid, f =>
      if pr.alertas_y_pedidos.any (fun a => a.fecha_alerta == some aid) then
        { pr with alertas_y_pedidos := updFirstPedido pr.alertas_y_pedidos aid f } :: rest
      else pr :: updateFirstAlert rest aid f

/-- `applySafetyStockToProjection`: validation, override write, recomputation
pipeline, and the document that would be persisted on success.  `none` models
a missing or non-numeric `newSafetyStock`. -/
def applySafetyStockOp (monthKeyOf : ℤ → ℤ) (z sqrtFn : ℚ → ℚ) (store : List Product)
    (code : ℤ) (projectionIndex : ℤ) (newSafetyStock : Option ℚ) :
    Except String (List Product) :=
  match newSafetyStock with
  | none => Except.error "El stock de seguridad debe ser un numero positivo."
  | some v =>
      if v < 0 then Except.error "El stock de seguridad debe ser un numero positivo."
      else
        match _findProductIdx store code with
        | none => Except.error "Producto no encontrado."
        | some i =>
            match store.get? i with
            | none => Except.error "Producto no encontrado."
            | some prod =>
                if projectionIndex < 0 then Except.error "Indice de proyeccion invalido."
                else
                  match prod.PROYECCIONES.get? projectionIndex.toNat with
                  | none => Except.error "Indice de proyeccion invalido."
                  | some proj =>
                      let prod1 := { prod with
                        CONFIGURACION := { prod.CONFIGURACION with
                          OV_SAFETY_STOCK := setOv prod.CONFIGURACION.OV_SAFETY_STOCK proj.mes v } }
                      Except.ok (store.set i (overridePipeline monthKeyOf z sqrtFn true prod1))

/-- `applyLeadTimeToProjection`. -/
def applyLeadTimeOp (monthKeyOf : ℤ → ℤ) (z sqrtFn : ℚ → ℚ) (store : List Product)
    (code : ℤ) (projectionIndex : ℤ) (newLeadTime : Option ℤ) :
    Except String (List Product) :=
  match newLeadTime with
  | none => Except.error "El lead time debe ser un numero positivo."
  | some v =>
      if v < 0 then Except.error "El lead time debe ser un numero positivo."
      else
        match _findProductIdx store code with
        | none => Except.error "Producto no encontrado."
        | some i =>
            match store.get? i with
            | none => Except.error "Producto no encontrado."
            | some prod =>
                if projectionIndex < 0 then Except.error "Indice de proyeccion invalido."
                else
                  match prod.PROYECCIONES.get? projectionIndex.toNat with
                  | none => Except.error "Indice de proyeccion invalido."
                  | some proj =>
                      let prod1 := { prod with
                        CONFIGURACION := { prod.CONFIGURACION with
                          OV_LEAD_TIME := setOv prod.CONFIGURACION.OV_LEAD_TIME proj.mes v } }
                      Except.ok (store.set i (overridePipeline monthKeyOf z sqrtFn true prod1))

/-- `updateAlert`: edits the first alert matching the id, recomputing its
arrival date when its lead time changes; alerts are not regenerated. -/
def updateAlertOp (monthKeyOf : ℤ → ℤ) (z sqrtFn : ℚ → ℚ) (store : List Product)
    (code : ℤ) (alertId : ℤ) (unidades : Option ℚ) (lead_time_especifico : Option ℤ) :
    Except String (List Product) :=
  match _findProductIdx store code with
  | none => Except.error "Producto no encontrado."
  | some i =>
      match store.get? i with
      | none => Except.error "Producto no encontrado."
      | some prod =>
          if alertExists prod.PROYECCIONES alertId then
            let projs := updateFirstAlert prod.PROYECCIONES alertId (fun a =>
              let a1 := match unidades with
                | some u => { a with unidades := u }
                | none => a
              match lead_time_especifico with
              | some l =>
                  let a2 := { a1 with lead_time_especifico := some l }
                  { a2 with fecha_arribo := _recalculateArrivalDate a2 }
              | none => a1)
            Except.ok (store.set i
              (overridePipeline monthKeyOf z sqrtFn false { prod with PROYECCIONES := projs }))
          else Except.error "Alerta no encontrada."

/-- `addManualTransitUnits`: appends a manual pending order; alerts are not
regenerated.  `none` models an invalid arrival date. -/
def addManualTransitOp (monthKeyOf : ℤ → ℤ) (z sqrtFn : ℚ → ℚ) (store : List Product)
    (code : ℤ) (units : ℚ) (expectedArrivalDate : Option ℤ) :
    Except String (List Product) :=
  if units ≤ 0 then Except.error "Las unidades deben ser un numero positivo."
  else
    match expectedArrivalDate with
    | none => Except.error "La fecha de arribo es invalida."
    | some d =>
        match _findProductIdx store code with
        | none => Except.error "Producto no encontrado."
        | some i =>
            match store.get? i with
            | none => Except.error "Producto no encontrado."
            | some prod =>
                let prod1 := { prod with PEDIDOS_POR_LLEGAR :=
                  prod.PEDIDOS_POR_LLEGAR ++
                    [{ unidades := units, fecha_arribo := some d, isManual := true }] }
                Except.ok (store.set i (overridePipeline monthKeyOf z sqrtFn false prod1))

/-- The document visible in storage after an operation: the storage upload is
the success path's last step, so an error leaves the original document. -/
def runPersist (store : List Product) (r : Except String (List Product)) : List Product :=
  match r with
  | Except.ok s => s
  | Except.error _ => store

/-- Whether an operation aborted with a thrown error. -/
def isErr (r : Except String (List Product)) : Bool :=
  match r with
  | Except.ok _ => false
  | Except.error _ => true

/-- First regenerated alert's alert date. -/
def firstAlertDate (l : List Pedido) : Option ℤ :=
  l.head?.bind (fun a => a.fecha_alerta)

/-- A junk projection used as `getD` default in index-based statements. -/
def projDefault : Projection :=
  { mes := 0, fecha_inicio_mes := 0, fecha_fin_mes := 0, consumo_diario := 0 }

/-- Store a per-month safety-stock override (the mutation of
`applySafetyStockToProjection`'s update function, keyed directly by month). -/
def withSSOverride (p : Product) (k : ℤ) (v : ℚ) : Product :=
  { p with CONFIGURACION := { p.CONFIGURACION with
      OV_SAFETY_STOCK := setOv p.CONFIGURACION.OV_SAFETY_STOCK k v } }

/-- Concrete projection used by witness instantiations. -/
def projW1 : Projection :=
  { mes := 0, fecha_inicio_mes := 0, fecha_fin_mes := 4, consumo_diario := 10,
    punto_reorden := 200 }

/-- Concrete product (the spec's §8 scenario) used by witness instantiations. -/
def pW1 : Product :=
  { STOCK_TOTAL := 100, CONSUMO_DIARIO := 10, FECHA_INICIAL := 0,
    UNIDADES_POR_CAJA := 1, CONFIGURACION := { LEAD_TIME_DAYS := some 20 },
    PROYECCIONES := [projW1] }

/-- Concrete product with two 20-unit manual transit additions arriving on
different dates (the spec's §8 two-manual-additions scenario). -/
def pW7 : Product :=
  { STOCK_TOTAL := 50, CONSUMO_DIARIO := 2, FECHA_INICIAL := 0,
    UNIDADES_POR_CAJA := 4, CONFIGURACION := { LEAD_TIME_DAYS := some 3 },
    PROYECCIONES := [{ mes := 0, fecha_inicio_mes := 0, fecha_fin_mes := 9,
                       consumo_diario := 2 }],
    PEDIDOS_POR_LLEGAR := [{ unidades := 20, fecha_arribo := some 5, isManual := true },
                           { unidades := 20, fecha_arribo := some 8, isManual := true }] }

/-- Tiny one-month product used by witness instantiations of the pipeline. -/
def pW2 : Product :=
  { STOCK_TOTAL := 5, CONSUMO_DIARIO := 1, FECHA_INICIAL := 0,
    UNIDADES_POR_CAJA := 1, CONFIGURACION := { LEAD_TIME_DAYS := some 2 },
    PROYECCIONES := [{ mes := 0, fecha_inicio_mes := 0, fecha_fin_mes := 0,
                       consumo_diario := 1 }] }

/-- The monthly projection produced by the recomputation pipeline on `pW2`
(used by witness instantiations). -/
def projW2out : Projection :=
  { mes := 0, fecha_inicio_mes := 0, fecha_fin_mes := 0, consumo_diario := 1,
    stock_inicial_mes := 5, stock_proyectado_mes := 4, unidades_en_transito := 0,
    stock_total_proyectado := 4, stock_seguridad := 0, lead_time_days := 2,
    punto_reorden := 2, stock_seguridad_source := SSource.Calculado,
    indicador_riesgo := Riesgo.Bajo,
    stock_diario_proyectado := [{ fecha := 0, stock_proyectado := 4,
                                  unidades_en_transito := 0, stock_total_proyectado := 4 }],
    alertas_y_pedidos := [] }

/-- Concrete two-month product used by the chaining witness. -/
def pW3 : Product :=
  { STOCK_TOTAL := 10, CONSUMO_DIARIO := 1, FECHA_INICIAL := 0,
    UNIDADES_POR_CAJA := 1, CONFIGURACION := { LEAD_TIME_DAYS := some 2 },
    PROYECCIONES := [
      { mes := 0, fecha_inicio_mes := 0, fecha_fin_mes := 1, consumo_diario := 1 },
      { mes := 1, fecha_inicio_mes := 2, fecha_fin_mes := 3, consumo_diario := 2 }] }

/-- The fields of a projection that determine whether an alert fires: month
key, daily consumption, reorder point. -/
def ropView (proj : Projection) : ℤ × ℚ × ℚ :=
  (proj.mes, proj.consumo_diario, proj.punto_reorden)

/-- Pairwise relation between projections of two runs that differ only by a
safety-stock override: same month, month end and consumption, and a reorder
point that is at least as large on the right. -/
def RelRop (prA prB : Projection) : Prop :=
  prA.mes = prB.mes ∧ prA.fecha_fin_mes = prB.fecha_fin_mes ∧
    prA.consumo_diario = prB.consumo_diario ∧ prA.punto_reorden ≤ prB.punto_reorden

/-- Base product for the override-monotonicity analysis: stock 6, consumption
1/day, lead time 2, one month over days 0–2, an existing safety-stock
override of 1 for that month. -/
def pW6 : Product :=
  { STOCK_TOTAL := 6, CONSUMO_DIARIO := 1, FECHA_INICIAL := 0,
    UNIDADES_POR_CAJA := 1,
    CONFIGURACION := { LEAD_TIME_DAYS := some 2, OV_SAFETY_STOCK := [(0, 1)] },
    PROYECCIONES := [{ mes := 0, fecha_inicio_mes := 0, fecha_fin_mes := 2,
                       consumo_diario := 1 }] }

/-- The projection fields the Daily Stock Simulator reads (never writes):
month key, month start/end dates, daily consumption, attached alerts. -/
def inputView (proj : Projection) : ℤ × ℤ × ℤ × ℚ × List Pedido :=
  (proj.mes, proj.fecha_inicio_mes, proj.fecha_fin_mes, proj.consumo_diario,
   proj.alertas_y_pedidos)

/-- The reorder-point invariant: every projection's stored reorder point is
the 2-decimal rounding of daily consumption × effective lead time + effective
safety stock. -/
def RopInv (z sqrtFn : ℚ → ℚ) (q : Product) : Prop :=
  ∀ proj ∈ q.PROYECCIONES,
    proj.punto_reorden =
      round2 (proj.consumo_diario *
          ((_getEffectiveLeadTime q.CONFIGURACION (some proj.mes) : ℤ) : ℚ) +
        _getEffectiveSafetyStock z sqrtFn q (some proj.mes))

/-- Invariant of the two-run regenerator comparison (run B has the larger
safety-stock override): either neither run has emitted an alert and the
running totals agree, or run B has already emitted its first alert — dated
no later than any remaining day and no later than run A's first alert, if
run A has one. -/
def RegenCmp (ds : List ℤ) (stA stB : RegenState) : Prop :=
  (stA.alerts = [] ∧ stB.alerts = [] ∧ stA.tot = stB.tot) ∨
  (∃ dB, firstAlertDate stB.alerts = some dB ∧ (∀ d ∈ ds, dB ≤ d) ∧
    (stA.alerts = [] ∨ ∃ dA, firstAlertDate stA.alerts = some dA ∧ dB ≤ dA))

section RoundLemmas

theorem round2_intCast (n : ℤ) : round2 ((n : ℚ) / 100) = (n : ℚ) / 100 := by
  unfold round2
  have h : (100 : ℚ) * ((n : ℚ) / 100) = (n : ℚ) := by ring
  rw [h, round_intCast]

theorem round2_idem (x : ℚ) : round2 (round2 x) = round2 x := by
  unfold round2
  have h : (100 : ℚ) * ((round (100 * x) : ℤ) / 100) = ((round (100 * x) : ℤ) : ℚ) := by ring
  rw [h, round_intCast]

theorem round2_abs_sub (x : ℚ) : |round2 x - x| ≤ 1 / 200 := by
  unfold round2
  have h : (round (100 * x) : ℚ) / 100 - x = -((100 * x - (round (100 * x) : ℤ)) / 100) := by
    ring
  rw [h, abs_neg, abs_div, abs_of_pos (by norm_num : (0:ℚ) < 100)]
  have h2 := abs_sub_round (100 * x)
  linarith

theorem round2_mono {x y : ℚ} (h : x ≤ y) : round2 x ≤ round2 y := by
  unfold round2
  rw [div_le_div_iff_of_pos_right (by norm_num : (0:ℚ) < 100)]
  have : round (100 * x) ≤ round (100 * y) := by
    rw [round_eq, round_eq]
    exact Int.floor_le_floor (by linarith)
  exact_mod_cast this

end RoundLemmas

/-- **C4 — counterexample.**  The claim says a stored per-month lead-time
override of zero takes precedence over the configuration default.  In the
code the truthiness test `OVERRIDES?.LEAD_TIME_DAYS?.[monthKey]` skips a
zero override: with override `0` stored for month `0` and configured default
`5`, the effective lead time is `5`, not `0`; and with a configured default
of `0` (and no override) it is the hardcoded `20`, not `0`. -/
theorem spec_c4_counterexample :
    _getEffectiveLeadTime { LEAD_TIME_DAYS := some 5, OV_LEAD_TIME := [(0, 0)] } (some 0) = 5 ∧
    ¬ _getEffectiveLeadTime { LEAD_TIME_DAYS := some 5, OV_LEAD_TIME := [(0, 0)] } (some 0) = 0 ∧
    _getEffectiveLeadTime { LEAD_TIME_DAYS := some 0 } (some 0) = 20 := by
  refine ⟨rfl, by decide, rfl⟩

/-- **C4 — amended.**  Effective lead-time resolution: a stored per-month
override takes precedence only when it is nonzero; a zero or absent override
falls through to the configuration default, which itself applies only when
set and nonzero, else the hardcoded 20 days. -/
theorem spec_c4_effective_lead_time (c : Config) (k : ℤ) :
    (∀ v, c.OV_LEAD_TIME.lookup k = some v → v ≠ 0 →
      _getEffectiveLeadTime c (some k) = v) ∧
    (c.OV_LEAD_TIME.lookup k = none ∨ c.OV_LEAD_TIME.lookup k = some 0 →
      _getEffectiveLeadTime c (some k) = effLeadTimeDefault c) ∧
    (∀ d, c.LEAD_TIME_DAYS = some d → d ≠ 0 → effLeadTimeDefault c = d) ∧
    (c.LEAD_TIME_DAYS = none ∨ c.LEAD_TIME_DAYS = some 0 →
      effLeadTimeDefault c = defaultLeadTimeDays) := by
  refine ⟨?_, ?_, ?_, ?_⟩
  · intro v hv hne
    simp [_getEffectiveLeadTime, hv, hne]
  · rintro (hv | hv) <;> simp [_getEffectiveLeadTime, hv]
  · intro d hd hne
    simp [effLeadTimeDefault, hd, hne]
  · rintro (hd | hd) <;> simp [effLeadTimeDefault, hd]

/-- **C4 — amended witness.** -/
theorem spec_c4_witness :
    ({ LEAD_TIME_DAYS := some 5, OV_LEAD_TIME := [(0, 7)] } : Config).OV_LEAD_TIME.lookup 0 =
      some 7 ∧ (7 : ℤ) ≠ 0 ∧
    _getEffectiveLeadTime { LEAD_TIME_DAYS := some 5, OV_LEAD_TIME := [(0, 7)] } (some 0) = 7 :=
  ⟨by decide, by decide,
    (spec_c4_effective_lead_time { LEAD_TIME_DAYS := some 5, OV_LEAD_TIME := [(0, 7)] } 0).1 7
      (by decide) (by decide)⟩

/-- **C5.**  With no truthy per-month override and no manual safety-stock
source, the effective safety stock for a month is the dynamic value
`z(serviceLevel/100) × sigma_d × sqrt(defaultLeadTime)` (service level
defaulting to 99.99), and it is `0` whenever `sigma_d` is `0`. -/
theorem spec_c5_dynamic_safety_stock (z sqrtFn : ℚ → ℚ) (p : Product) (k : ℤ)
    (hov : ssOverrideTruthy p.CONFIGURACION k = false)
    (hman : p.CONFIGURACION.SAFETY_STOCK_SOURCE_MANUAL = false) :
    _getEffectiveSafetyStock z sqrtFn p (some k) =
      z ((p.CONFIGURACION.NIVEL_SERVICIO.getD (9999 / 100)) / 100) * p.SIGMA_D.getD 0 *
        sqrtFn ((effLeadTimeDefault p.CONFIGURACION : ℤ) : ℚ) ∧
    (p.SIGMA_D.getD 0 = 0 → _getEffectiveSafetyStock z sqrtFn p (some k) = 0) := by
  have hmain : _getEffectiveSafetyStock z sqrtFn p (some k) =
      z ((p.CONFIGURACION.NIVEL_SERVICIO.getD (9999 / 100)) / 100) * p.SIGMA_D.getD 0 *
        sqrtFn ((effLeadTimeDefault p.CONFIGURACION : ℤ) : ℚ) := by
    unfold _getEffectiveSafetyStock ssOverrideTruthy at *
    cases hl : p.CONFIGURACION.OV_SAFETY_STOCK.lookup k with
    | none =>
        simp [hl, hman, _calculateDynamicSafetyStock, _calculateZFactor]
    | some v =>
        rw [hl] at hov
        have hv : v = 0 := by simpa using hov
        subst hv
        simp [hl, hman, _calculateDynamicSafetyStock, _calculateZFactor]
  refine ⟨hmain, fun hs => ?_⟩
  rw [hmain, hs, mul_zero, zero_mul]

/-- **C5 — witness.** -/
theorem spec_c5_witness :
    ssOverrideTruthy ({ NIVEL_SERVICIO := some 95 } : Config) 0 = false ∧
    ({ NIVEL_SERVICIO := some 95 } : Config).SAFETY_STOCK_SOURCE_MANUAL = false ∧
    (_getEffectiveSafetyStock (fun q => q) (fun q => q)
        { STOCK_TOTAL := 10, FECHA_INICIAL := 0, SIGMA_D := some 4,
          CONFIGURACION := { NIVEL_SERVICIO := some 95 } } (some 0) =
      (95 / 100) * 4 * 20 ∧
    (({ STOCK_TOTAL := 10, FECHA_INICIAL := 0, SIGMA_D := some 4,
          CONFIGURACION := { NIVEL_SERVICIO := some 95 } } : Product).SIGMA_D.getD 0 = 0 →
      _getEffectiveSafetyStock (fun q => q) (fun q => q)
        { STOCK_TOTAL := 10, FECHA_INICIAL := 0, SIGMA_D := some 4,
          CONFIGURACION := { NIVEL_SERVICIO := some 95 } } (some 0) = 0)) :=
  ⟨by decide, by decide,
    spec_c5_dynamic_safety_stock (fun q => q) (fun q => q)
      { STOCK_TOTAL := 10, FECHA_INICIAL := 0, SIGMA_D := some 4,
        CONFIGURACION := { NIVEL_SERVICIO := some 95 } } 0 (by decide) (by decide)⟩

/-- Steps of the alert regenerator never emit an alert when units-per-box is
not positive: the boxes-to-order guard yields zero boxes, zero units. -/
theorem regenStep_alerts_of_upb_nonpos (monthKeyOf : ℤ → ℤ) (p : Product)
    (hupb : p.UNIDADES_POR_CAJA ≤ 0) (st : RegenState) (d : ℤ) :
    (regenStep monthKeyOf p st d).alerts = st.alerts := by
  unfold regenStep
  cases hf : p.PROYECCIONES.find? (fun pr => pr.mes == monthKeyOf d) with
  | none => rfl
  | some proj =>
      simp only
      split
      · have hz : regenUnits p proj (st.tot + arrivalsOn (manualPedidos p) d)
            (_getEffectiveLeadTime p.CONFIGURACION (some (monthKeyOf d))) = 0 := by
          unfold regenUnits regenCajas
          rw [if_neg (not_lt.mpr hupb)]
          simp
        simp [hz]
      · rfl

/-- **C10.**  A product with non-positive units-per-box regenerates an empty
alert list, no matter how far stock falls below the reorder point. -/
theorem spec_c10_no_alerts_nonpositive_upb (monthKeyOf : ℤ → ℤ) (p : Product)
    (hupb : p.UNIDADES_POR_CAJA ≤ 0) :
    _regenerateAlertsAndOrders monthKeyOf p = [] := by
  unfold _regenerateAlertsAndOrders
  cases hl : p.PROYECCIONES.getLast? with
  | none => rfl
  | some lastP =>
      simp only
      have key : ∀ (days : List ℤ) (st : RegenState),
          (days.foldl (regenStep monthKeyOf p) st).alerts = st.alerts := by
        intro days
        induction days with
        | nil => intro st; rfl
        | cons d rest ih =>
            intro st
            rw [List.foldl_cons, ih, regenStep_alerts_of_upb_nonpos monthKeyOf p hupb]
      exact key _ _

/-- **C10 — witness.** -/
theorem spec_c10_witness :
    Product.UNIDADES_POR_CAJA
      { STOCK_TOTAL := 0, FECHA_INICIAL := 0, UNIDADES_POR_CAJA := 0,
        PROYECCIONES := [{ mes := 0, fecha_inicio_mes := 0, fecha_fin_mes := 9,
                           consumo_diario := 5, punto_reorden := 1000 }] } ≤ 0 ∧
    _regenerateAlertsAndOrders (fun _ => 0)
      { STOCK_TOTAL := 0, FECHA_INICIAL := 0, UNIDADES_POR_CAJA := 0,
        PROYECCIONES := [{ mes := 0, fecha_inicio_mes := 0, fecha_fin_mes := 9,
                           consumo_diario := 5, punto_reorden := 1000 }] } = [] :=
  ⟨by decide,
    spec_c10_no_alerts_nonpositive_upb (fun _ => 0)
      { STOCK_TOTAL := 0, FECHA_INICIAL := 0, UNIDADES_POR_CAJA := 0,
        PROYECCIONES := [{ mes := 0, fecha_inicio_mes := 0, fecha_fin_mes := 9,
                           consumo_diario := 5, punto_reorden := 1000 }] } (by decide)⟩

/-- **C1.**  Alert regeneration rule, per simulated day.  With positive
units-per-box and a projection found for the day's month: after manual
arrivals are applied, when running total stock is at or below the month's
reorder point the regenerator computes
`deficit = reorderPoint - totalStock + dailyConsumption * effectiveLeadTime`,
boxes = `⌈deficit / unitsPerBox⌉` (`regenCajas`), units = boxes ×
unitsPerBox (`regenUnits`); exactly when units > 0 it appends an alert dated
that day with arrival = that day + effective lead time (`regenAlert`) and
adds the units to the running total stock before the day's consumption is
subtracted.  The full regenerator folds this step over every day from the
simulation start to the horizon end. -/
theorem spec_c1_regen_alert_rule (monthKeyOf : ℤ → ℤ) (p : Product) (st : RegenState)
    (d : ℤ) (proj : Projection)
    (hfind : p.PROYECCIONES.find? (fun pr => pr.mes == monthKeyOf d) = some proj)
    (hupb : 0 < p.UNIDADES_POR_CAJA)
    (htrig : st.tot + arrivalsOn (manualPedidos p) d ≤ proj.punto_reorden) :
    regenCajas p proj (st.tot + arrivalsOn (manualPedidos p) d)
        (_getEffectiveLeadTime p.CONFIGURACION (some (monthKeyOf d))) =
      ⌈(proj.punto_reorden - (st.tot + arrivalsOn (manualPedidos p) d) +
          proj.consumo_diario *
            ((_getEffectiveLeadTime p.CONFIGURACION (some (monthKeyOf d)) : ℤ) : ℚ)) /
          p.UNIDADES_POR_CAJA⌉ ∧
    (0 < regenUnits p proj (st.tot + arrivalsOn (manualPedidos p) d)
        (_getEffectiveLeadTime p.CONFIGURACION (some (monthKeyOf d))) →
      (regenStep monthKeyOf p st d).alerts =
        st.alerts ++ [regenAlert p proj (st.tot + arrivalsOn (manualPedidos p) d)
          (_getEffectiveLeadTime p.CONFIGURACION (some (monthKeyOf d))) d] ∧
      (regenStep monthKeyOf p st d).tot =
        max 0 (st.tot + arrivalsOn (manualPedidos p) d +
          regenUnits p proj (st.tot + arrivalsOn (manualPedidos p) d)
            (_getEffectiveLeadTime p.CONFIGURACION (some (monthKeyOf d))) -
          proj.consumo_diario)) ∧
    (¬ 0 < regenUnits p proj (st.tot + arrivalsOn (manualPedidos p) d)
        (_getEffectiveLeadTime p.CONFIGURACION (some (monthKeyOf d))) →
      (regenStep monthKeyOf p st d).alerts = st.alerts ∧
      (regenStep monthKeyOf p st d).tot =
        max 0 (st.tot + arrivalsOn (manualPedidos p) d - proj.consumo_diario)) ∧
    (∀ lastP, p.PROYECCIONES.getLast? = some lastP →
      _regenerateAlertsAndOrders monthKeyOf p =
        ((dayRange p.FECHA_INICIAL lastP.fecha_fin_mes).foldl (regenStep monthKeyOf p)
          { fis := p.STOCK_TOTAL, tot := p.STOCK_TOTAL, alerts := [] }).alerts) := by
  refine ⟨by simp [regenCajas, if_pos hupb], fun hpos => ?_, fun hneg => ?_,
    fun lastP hlast => ?_⟩
  · constructor
    · unfold regenStep
      rw [hfind]
      simp only [if_pos htrig, if_pos hpos]
    · unfold regenStep
      rw [hfind]
      simp only [if_pos htrig, if_pos hpos]
  · constructor
    · unfold regenStep
      rw [hfind]
      simp only [if_pos htrig, if_neg hneg]
    · unfold regenStep
      rw [hfind]
      simp only [if_pos htrig, if_neg hneg]
  · unfold _regenerateAlertsAndOrders
    rw [hlast]

/-- **C1 — witness.** -/
theorem spec_c1_witness :
    pW1.PROYECCIONES.find? (fun pr => pr.mes == (0 : ℤ)) = some projW1 ∧
    (0 : ℚ) < pW1.UNIDADES_POR_CAJA ∧
    (100 : ℚ) + arrivalsOn (manualPedidos pW1) 0 ≤ projW1.punto_reorden ∧
    (regenStep (fun _ => 0) pW1 { fis := 100, tot := 100, alerts := [] } 0).alerts =
      [{ unidades := 300, fecha_arribo := some 20, fecha_alerta := some 0,
         lead_time_especifico := some 20, cajas_pedir := 300 }] := by
  have harr : arrivalsOn (manualPedidos pW1) 0 = 0 := by
    simp [arrivalsOn, manualPedidos, pW1]
  have hlt : _getEffectiveLeadTime pW1.CONFIGURACION (some ((fun _ : ℤ => (0:ℤ)) 0)) = 20 := by
    simp [pW1, _getEffectiveLeadTime, effLeadTimeDefault]
  have h := spec_c1_regen_alert_rule (fun _ => 0) pW1
    { fis := 100, tot := 100, alerts := [] } 0 projW1
    (by simp [pW1, projW1, List.find?]) (by norm_num [pW1])
    (by rw [harr]; norm_num [projW1])
  have h1 := h.2.1 (by
    rw [harr, hlt]
    norm_num [regenUnits, regenCajas, projW1, pW1])
  refine ⟨by simp [pW1, projW1, List.find?], by norm_num [pW1],
    by rw [harr]; norm_num [projW1], ?_⟩
  rw [h1.1, harr, hlt]
  norm_num [regenAlert, regenUnits, regenCajas, projW1, pW1, round2, round_eq,
    Int.floor_eq_iff]

/-- An errored operation persists nothing: the stored document is unchanged. -/
theorem runPersist_of_isErr (store : List Product) (r : Except String (List Product))
    (h : isErr r = true) : runPersist store r = store := by
  cases r with
  | ok s => simp [isErr] at h
  | error e => rfl

/-- **C8.**  Validation atomicity of the four override operations: a missing
or negative safety-stock / lead-time value, a negative or out-of-range
projection index, a nonexistent alert id, non-positive manual units, or an
invalid manual arrival date each abort the operation with an error, and the
persisted analysis document is left exactly as it was. -/
theorem spec_c8_validation_atomicity (monthKeyOf : ℤ → ℤ) (z sqrtFn : ℚ → ℚ)
    (store : List Product) (code idx aid : ℤ) (v u : ℚ) (w : ℤ)
    (un : Option ℚ) (lt : Option ℤ) :
    (isErr (applySafetyStockOp monthKeyOf z sqrtFn store code idx none) = true ∧
      runPersist store (applySafetyStockOp monthKeyOf z sqrtFn store code idx none) = store) ∧
    (v < 0 →
      isErr (applySafetyStockOp monthKeyOf z sqrtFn store code idx (some v)) = true ∧
      runPersist store (applySafetyStockOp monthKeyOf z sqrtFn store code idx (some v)) =
        store) ∧
    (idx < 0 →
      isErr (applySafetyStockOp monthKeyOf z sqrtFn store code idx (some v)) = true ∧
      runPersist store (applySafetyStockOp monthKeyOf z sqrtFn store code idx (some v)) =
        store) ∧
    (∀ i prod, _findProductIdx store code = some i → store[i]? = some prod →
      prod.PROYECCIONES[idx.toNat]? = none →
      isErr (applySafetyStockOp monthKeyOf z sqrtFn store code idx (some v)) = true ∧
      runPersist store (applySafetyStockOp monthKeyOf z sqrtFn store code idx (some v)) =
        store) ∧
    (isErr (applyLeadTimeOp monthKeyOf z sqrtFn store code idx none) = true ∧
      runPersist store (applyLeadTimeOp monthKeyOf z sqrtFn store code idx none) = store) ∧
    (w < 0 →
      isErr (applyLeadTimeOp monthKeyOf z sqrtFn store code idx (some w)) = true ∧
      runPersist store (applyLeadTimeOp monthKeyOf z sqrtFn store code idx (some w)) =
        store) ∧
    (idx < 0 →
      isErr (applyLeadTimeOp monthKeyOf z sqrtFn store code idx (some w)) = true ∧
      runPersist store (applyLeadTimeOp monthKeyOf z sqrtFn store code idx (some w)) =
        store) ∧
    (∀ i prod, _findProductIdx store code = some i → store[i]? = some prod →
      prod.PROYECCIONES[idx.toNat]? = none →
      isErr (applyLeadTimeOp monthKeyOf z sqrtFn store code idx (some w)) = true ∧
      runPersist store (applyLeadTimeOp monthKeyOf z sqrtFn store code idx (some w)) =
        store) ∧
    (∀ i prod, _findProductIdx store code = some i → store[i]? = some prod →
      alertExists prod.PROYECCIONES aid = false →
      isErr (updateAlertOp monthKeyOf z sqrtFn store code aid un lt) = true ∧
      runPersist store (updateAlertOp monthKeyOf z sqrtFn store code aid un lt) = store) ∧
    (u ≤ 0 →
      isErr (addManualTransitOp monthKeyOf z sqrtFn store code u (some 0)) = true ∧
      runPersist store (addManualTransitOp monthKeyOf z sqrtFn store code u (some 0)) =
        store) ∧
    (isErr (addManualTransitOp monthKeyOf z sqrtFn store code u none) = true ∧
      runPersist store (addManualTransitOp monthKeyOf z sqrtFn store code u none) = store) := by
  have hrp := runPersist_of_isErr store
  refine ⟨?_, ?_, ?_, ?_, ?_, ?_, ?_, ?_, ?_, ?_, ?_⟩
  · have h : isErr (applySafetyStockOp monthKeyOf z sqrtFn store code idx none) = true := by
      unfold applySafetyStockOp
      rfl
    exact ⟨h, hrp _ h⟩
  · intro hv
    have h : isErr (applySafetyStockOp monthKeyOf z sqrtFn store code idx (some v)) = true := by
      unfold applySafetyStockOp
      simp only [if_pos hv]
      rfl
    exact ⟨h, hrp _ h⟩
  · intro hidx
    have h : isErr (applySafetyStockOp monthKeyOf z sqrtFn store code idx (some v)) = true := by
      unfold applySafetyStockOp
      by_cases hv : v < 0
      · simp [hv, isErr]
      · simp only [if_neg hv]
        cases hfi : _findProductIdx store code with
        | none => simp [isErr]
        | some i =>
            cases hget : store[i]? with
            | none => simp [hget, isErr]
            | some prod => simp [hget, if_pos hidx, isErr]
    exact ⟨h, hrp _ h⟩
  · intro i prod hfi hget hnone
    have h : isErr (applySafetyStockOp monthKeyOf z sqrtFn store code idx (some v)) = true := by
      unfold applySafetyStockOp
      by_cases hv : v < 0
      · simp [hv, isErr]
      · simp [hv, hfi, hget, hnone, isErr, apply_ite]
    exact ⟨h, hrp _ h⟩
  · have h : isErr (applyLeadTimeOp monthKeyOf z sqrtFn store code idx none) = true := by
      unfold applyLeadTimeOp
      rfl
    exact ⟨h, hrp _ h⟩
  · intro hw
    have h : isErr (applyLeadTimeOp monthKeyOf z sqrtFn store code idx (some w)) = true := by
      unfold applyLeadTimeOp
      simp only [if_pos hw]
      rfl
    exact ⟨h, hrp _ h⟩
  · intro hidx
    have h : isErr (applyLeadTimeOp monthKeyOf z sqrtFn store code idx (some w)) = true := by
      unfold applyLeadTimeOp
      by_cases hw : w < 0
      · simp [hw, isErr]
      · simp only [if_neg hw]
        cases hfi : _findProductIdx store code with
        | none => simp [isErr]
        | some i =>
            cases hget : store[i]? with
            | none => simp [hget, isErr]
            | some prod => simp [hget, if_pos hidx, isErr]
    exact ⟨h, hrp _ h⟩
  · intro i prod hfi hget hnone
    have h : isErr (applyLeadTimeOp monthKeyOf z sqrtFn store code idx (some w)) = true := by
      unfold applyLeadTimeOp
      by_cases hw : w < 0
      · simp [hw, isErr]
      · simp [hw, hfi, hget, hnone, isErr, apply_ite]
    exact ⟨h, hrp _ h⟩
  · intro i prod hfi hget hnoalert
    have h : isErr (updateAlertOp monthKeyOf z sqrtFn store code aid un lt) = true := by
      unfold updateAlertOp
      simp [hfi, hget, hnoalert, isErr]
    exact ⟨h, hrp _ h⟩
  · intro hu
    have h : isErr (addManualTransitOp monthKeyOf z sqrtFn store code u (some 0)) = true := by
      unfold addManualTransitOp
      simp only [if_pos hu]
      rfl
    exact ⟨h, hrp _ h⟩
  · have h : isErr (addManualTransitOp monthKeyOf z sqrtFn store code u none) = true := by
      unfold addManualTransitOp
      split
      · rfl
      · rfl
    exact ⟨h, hrp _ h⟩

/-- **C8 — witness.** -/
theorem spec_c8_witness :
    runPersist [pW1] (applySafetyStockOp (fun _ => 0) (fun q => q) (fun q => q)
      [pW1] 0 0 none) = [pW1] ∧
    (-1 : ℚ) < 0 ∧
    runPersist [pW1] (applySafetyStockOp (fun _ => 0) (fun q => q) (fun q => q)
      [pW1] 0 0 (some (-1))) = [pW1] ∧
    (-2 : ℤ) < 0 ∧
    runPersist [pW1] (applyLeadTimeOp (fun _ => 0) (fun q => q) (fun q => q)
      [pW1] 0 0 (some (-2))) = [pW1] ∧
    _findProductIdx [pW1] 0 = some 0 ∧
    [pW1][(0 : ℕ)]? = some pW1 ∧
    alertExists pW1.PROYECCIONES 7 = false ∧
    runPersist [pW1] (updateAlertOp (fun _ => 0) (fun q => q) (fun q => q)
      [pW1] 0 7 (some 5) none) = [pW1] ∧
    (0 : ℚ) ≤ 0 ∧
    runPersist [pW1] (addManualTransitOp (fun _ => 0) (fun q => q) (fun q => q)
      [pW1] 0 0 (some 0)) = [pW1] ∧
    runPersist [pW1] (addManualTransitOp (fun _ => 0) (fun q => q) (fun q => q)
      [pW1] 0 0 none) = [pW1] := by
  have h := spec_c8_validation_atomicity (fun _ => 0) (fun q => q) (fun q => q)
    [pW1] 0 0 7 (-1) 0 (-2) (some 5) none
  refine ⟨h.1.2, by norm_num, (h.2.1 (by norm_num)).2, by norm_num,
    (h.2.2.2.2.2.1 (by norm_num)).2, ?_, ?_, ?_, ?_, le_refl 0, ?_, ?_⟩
  · simp [_findProductIdx, pW1, List.findIdx?]
  · rfl
  · simp [alertExists, pW1, projW1]
  · exact (h.2.2.2.2.2.2.2.2.1 0 pW1 (by simp [_findProductIdx, pW1, List.findIdx?]) rfl
      (by simp [alertExists, pW1, projW1])).2
  · exact (h.2.2.2.2.2.2.2.2.2.1 (le_refl 0)).2
  · exact h.2.2.2.2.2.2.2.2.2.2.2

/-- The in-transit fold adds, for each merged order, its units on exactly the
horizon days of the window `[creation, arrival)`. -/
theorem buildTransit_fold_char (p : Product) (days : List ℤ) (d : ℤ) (hd : d ∈ days)
    (l : List Pedido) (m : ℤ → ℚ) :
    (l.foldl (fun m o =>
        match o.fecha_arribo with
        | none => m
        | some arr => addTransit (transitStart p o) arr days o.unidades m) m) d =
      m d + ((l.filter (fun o =>
        match o.fecha_arribo with
        | some arr => decide (transitStart p o ≤ d ∧ d < arr)
        | none => false)).map (fun o => o.unidades)).sum := by
  induction l generalizing m with
  | nil => simp
  | cons o tl ih =>
      rw [List.foldl_cons, ih]
      cases harr : o.fecha_arribo with
      | none => simp [harr]
      | some arr =>
          by_cases hw : transitStart p o ≤ d ∧ d < arr
          · have hcond : transitStart p o ≤ d ∧ d < arr ∧ d ∈ days := ⟨hw.1, hw.2, hd⟩
            rw [List.filter_cons]
            simp only [harr]
            simp [hw, hd, addTransit, add_assoc]
          · have hcond : ¬ (transitStart p o ≤ d ∧ d < arr ∧ d ∈ days) := by
              intro hc
              exact hw ⟨hc.1, hc.2.1⟩
            rw [List.filter_cons]
            simp only [harr]
            simp [hw, addTransit, if_neg hcond]

/-- **C7.**  In-transit accounting: on every horizon day `d`, the per-day
in-transit quantity is the sum of the units of exactly those merged orders
whose window `[creation day, arrival day)` contains `d` — the creation day
being the alert date, or the simulation start for manual orders with no
alert date — and each recorded daily entry carries total projected stock
equal to the (2-decimal-rounded) sum of that day's physical projected stock
and that day's in-transit quantity. -/
theorem spec_c7_in_transit (p : Product) (days : List ℤ) (d : ℤ) (hd : d ∈ days) :
    buildTransit p days d =
      (((mergedOrders p).filter (fun o =>
        match o.fecha_arribo with
        | some arr => decide (transitStart p o ≤ d ∧ d < arr)
        | none => false)).map (fun o => o.unidades)).sum ∧
    ∀ (orders : List Pedido) (transit : ℤ → ℚ) (consumo : ℚ)
      (st : ℚ × List DailyEntry) (e : ℤ),
      simDayStep orders transit consumo st e =
        (max 0 (st.1 + arrivalsOn orders e - consumo),
         st.2 ++ [{ fecha := e,
                    stock_proyectado := round2 (max 0 (st.1 + arrivalsOn orders e - consumo)),
                    unidades_en_transito := round2 (transit e),
                    stock_total_proyectado :=
                      round2 (max 0 (st.1 + arrivalsOn orders e - consumo) + transit e) }]) := by
  constructor
  · unfold buildTransit
    rw [buildTransit_fold_char p days d hd (mergedOrders p) (fun _ => 0)]
    simp
  · intro orders transit consumo st e
    rfl

/-- **C7 — witness**: both 20-unit manual additions are in transit on day 3
(between their creation day 0 and arrivals on days 5 and 8) and sum to 40. -/
theorem spec_c7_witness :
    (3 : ℤ) ∈ dayRange 0 9 ∧
    buildTransit pW7 (dayRange 0 9) 3 =
      (((mergedOrders pW7).filter (fun o =>
        match o.fecha_arribo with
        | some arr => decide (transitStart pW7 o ≤ 3 ∧ 3 < arr)
        | none => false)).map (fun o => o.unidades)).sum ∧
    buildTransit pW7 (dayRange 0 9) 3 = 40 := by
  have hmem : (3 : ℤ) ∈ dayRange 0 9 := by decide
  have h := spec_c7_in_transit pW7 (dayRange 0 9) 3 hmem
  refine ⟨hmem, h.1, ?_⟩
  rw [h.1]
  norm_num [mergedOrders, sortByArrival, insertByArrival, manualPedidos,
    _recalculateArrivalDate, transitStart, pW7]

/-- Effective safety stock only reads the configuration and `SIGMA_D`. -/
theorem effSS_congr (z sqrtFn : ℚ → ℚ) (p q : Product)
    (hc : p.CONFIGURACION = q.CONFIGURACION) (hs : p.SIGMA_D = q.SIGMA_D) (mk : Option ℤ) :
    _getEffectiveSafetyStock z sqrtFn p mk = _getEffectiveSafetyStock z sqrtFn q mk := by
  unfold _getEffectiveSafetyStock _calculateDynamicSafetyStock _calculateZFactor
  rw [hc, hs]

/-- The reorder-point invariant depends only on the `ropView` of each
projection (and the configuration). -/
theorem ropInv_iff_view (z sqrtFn : ℚ → ℚ) (q : Product) :
    RopInv z sqrtFn q ↔
      ∀ v ∈ q.PROYECCIONES.map ropView,
        v.2.2 = round2 (v.2.1 * ((_getEffectiveLeadTime q.CONFIGURACION (some v.1) : ℤ) : ℚ) +
          _getEffectiveSafetyStock z sqrtFn q (some v.1)) := by
  unfold RopInv
  constructor
  · intro h v hv
    obtain ⟨proj, hm, rfl⟩ := List.mem_map.mp hv
    exact h proj hm
  · intro h proj hm
    exact h (ropView proj) (List.mem_map_of_mem _ hm)

/-- Transfer of the reorder-point invariant along equal rop-views. -/
theorem ropInv_transfer (z sqrtFn : ℚ → ℚ) (q₀ q : Product)
    (hv : q.PROYECCIONES.map ropView = q₀.PROYECCIONES.map ropView)
    (hc : q.CONFIGURACION = q₀.CONFIGURACION) (hs : q.SIGMA_D = q₀.SIGMA_D)
    (h : RopInv z sqrtFn q₀) : RopInv z sqrtFn q := by
  rw [ropInv_iff_view] at h ⊢
  rw [hv, hc]
  intro v hvm
  rw [effSS_congr z sqrtFn q q₀ hc hs]
  exact h v hvm

/-- The effective-parameter refresh establishes the reorder-point invariant. -/
theorem ropInv_applyEffectiveParams (z sqrtFn : ℚ → ℚ) (p : Product) :
    RopInv z sqrtFn (applyEffectiveParams z sqrtFn p) := by
  have hc : (applyEffectiveParams z sqrtFn p).CONFIGURACION = p.CONFIGURACION := rfl
  have hs : (applyEffectiveParams z sqrtFn p).SIGMA_D = p.SIGMA_D := rfl
  intro proj hm
  rw [hc, effSS_congr z sqrtFn (applyEffectiveParams z sqrtFn p) p hc hs]
  unfold applyEffectiveParams at hm
  simp only [List.mem_map] at hm
  obtain ⟨a, ha, rfl⟩ := hm
  rfl

/-- Clearing alerts does not change any projection's rop-view. -/
theorem ropView_clearAlerts (p : Product) :
    (clearAlerts p).PROYECCIONES.map ropView = p.PROYECCIONES.map ropView := by
  unfold clearAlerts
  simp only [List.map_map]
  exact List.map_congr_left (fun a _ => rfl)

/-- Attaching an alert to a month does not change any rop-view. -/
theorem ropView_attachFirst (k : ℤ) (a : Pedido) :
    ∀ projs : List Projection, (attachFirst projs k a).map ropView = projs.map ropView := by
  intro projs
  induction projs with
  | nil => rfl
  | cons proj rest ih =>
      unfold attachFirst
      split
      · rfl
      · simp only [List.map_cons, ih]

/-- Attaching one regenerated alert does not change any rop-view. -/
theorem ropView_attachAlert (monthKeyOf : ℤ → ℤ) (projs : List Projection) (a : Pedido) :
    (attachAlert monthKeyOf projs a).map ropView = projs.map ropView := by
  unfold attachAlert
  cases a.fecha_alerta with
  | none => rfl
  | some fa => exact ropView_attachFirst _ _ _

/-- Reattaching a whole alert list does not change any rop-view. -/
theorem ropView_foldl_attach (monthKeyOf : ℤ → ℤ) :
    ∀ (alerts : List Pedido) (projs : List Projection),
      ((alerts.foldl (fun ps a => attachAlert monthKeyOf ps a) projs).map ropView) =
        projs.map ropView := by
  intro alerts
  induction alerts with
  | nil => intro projs; rfl
  | cons a tl ih =>
      intro projs
      rw [List.foldl_cons, ih, ropView_attachAlert]

/-- The alert-regeneration phase does not change any rop-view. -/
theorem ropView_regenPhase (monthKeyOf : ℤ → ℤ) (p : Product) :
    (regenPhase monthKeyOf p).PROYECCIONES.map ropView = p.PROYECCIONES.map ropView := by
  unfold regenPhase
  rw [ropView_foldl_attach, ropView_clearAlerts]

/-- The recalculation month loop preserves the reorder-point field equation:
a month with simulated days gets the freshly recomputed reorder point, an
empty month keeps its previous (already invariant) one. -/
theorem recalcAux_ropfield (z sqrtFn : ℚ → ℚ) (p : Product) (o : List Pedido) (t : ℤ → ℚ) :
    ∀ (projs : List Projection) (x : ℚ),
      (∀ proj ∈ projs, proj.punto_reorden =
        round2 (proj.consumo_diario *
            ((_getEffectiveLeadTime p.CONFIGURACION (some proj.mes) : ℤ) : ℚ) +
          _getEffectiveSafetyStock z sqrtFn p (some proj.mes))) →
      ∀ proj ∈ recalcAux z sqrtFn p o t x projs, proj.punto_reorden =
        round2 (proj.consumo_diario *
            ((_getEffectiveLeadTime p.CONFIGURACION (some proj.mes) : ℤ) : ℚ) +
          _getEffectiveSafetyStock z sqrtFn p (some proj.mes)) := by
  intro projs
  induction projs with
  | nil => intro x h proj hm; simp [recalcAux] at hm
  | cons pr rest ih =>
      intro x h proj hm
      simp only [recalcAux] at hm
      rcases List.mem_cons.mp hm with heq | hmem
      · subst heq
        simp only [recalcOne]
        cases hl : (simulateMonth o t pr x).2.getLast? with
        | none => exact h pr (List.mem_cons_self _ _)
        | some u => rfl
      · exact ih _ (fun q hq => h q (List.mem_cons_of_mem _ hq)) proj hmem

/-- The daily simulator preserves the reorder-point invariant. -/
theorem ropInv_recalc (z sqrtFn : ℚ → ℚ) (p : Product) (h : RopInv z sqrtFn p) :
    RopInv z sqrtFn (_recalculateProjections z sqrtFn p) := by
  have hc : (_recalculateProjections z sqrtFn p).CONFIGURACION = p.CONFIGURACION := rfl
  have hs : (_recalculateProjections z sqrtFn p).SIGMA_D = p.SIGMA_D := rfl
  intro proj hm
  rw [hc, effSS_congr z sqrtFn (_recalculateProjections z sqrtFn p) p hc hs]
  exact recalcAux_ropfield z sqrtFn p _ _ p.PROYECCIONES p.STOCK_TOTAL h proj hm

/-- **C2.**  After an override operation's full recomputation pipeline, every
monthly projection's reorder point equals its daily consumption × effective
lead time + effective safety stock, within 0.01. -/
theorem spec_c2_reorder_point_invariant (monthKeyOf : ℤ → ℤ) (z sqrtFn : ℚ → ℚ)
    (regenerate : Bool) (p : Product) :
    ∀ proj ∈ (overridePipeline monthKeyOf z sqrtFn regenerate p).PROYECCIONES,
      |proj.punto_reorden -
        (proj.consumo_diario *
            ((_getEffectiveLeadTime
                (overridePipeline monthKeyOf z sqrtFn regenerate p).CONFIGURACION
                (some proj.mes) : ℤ) : ℚ) +
          _getEffectiveSafetyStock z sqrtFn
            (overridePipeline monthKeyOf z sqrtFn regenerate p) (some proj.mes))| ≤
        1 / 100 := by
  have h1 : RopInv z sqrtFn (applyEffectiveParams z sqrtFn p) :=
    ropInv_applyEffectiveParams z sqrtFn p
  have h2 : RopInv z sqrtFn
      (if regenerate then regenPhase monthKeyOf (applyEffectiveParams z sqrtFn p)
       else applyEffectiveParams z sqrtFn p) := by
    cases regenerate with
    | false => simpa using h1
    | true =>
        simp only [if_true]
        exact ropInv_transfer z sqrtFn _ _ (ropView_regenPhase monthKeyOf _) rfl rfl h1
  have h3 : RopInv z sqrtFn (overridePipeline monthKeyOf z sqrtFn regenerate p) := by
    unfold overridePipeline
    exact ropInv_transfer z sqrtFn _ _ rfl rfl rfl (ropInv_recalc z sqrtFn _ h2)
  intro proj hm
  rw [h3 proj hm]
  calc |round2 (proj.consumo_diario *
          ((_getEffectiveLeadTime
              (overridePipeline monthKeyOf z sqrtFn regenerate p).CONFIGURACION
              (some proj.mes) : ℤ) : ℚ) +
        _getEffectiveSafetyStock z sqrtFn
          (overridePipeline monthKeyOf z sqrtFn regenerate p) (some proj.mes)) -
        (proj.consumo_diario *
          ((_getEffectiveLeadTime
              (overridePipeline monthKeyOf z sqrtFn regenerate p).CONFIGURACION
              (some proj.mes) : ℤ) : ℚ) +
        _getEffectiveSafetyStock z sqrtFn
          (overridePipeline monthKeyOf z sqrtFn regenerate p) (some proj.mes))| ≤ 1 / 200 :=
        round2_abs_sub _
    _ ≤ 1 / 100 := by norm_num

/-- **C2 — witness.** -/
theorem spec_c2_witness :
    projW2out ∈ (overridePipeline (fun _ => 0) (fun _ => (0:ℚ)) (fun q => q)
      false pW2).PROYECCIONES ∧
    |projW2out.punto_reorden -
      (projW2out.consumo_diario *
          ((_getEffectiveLeadTime
              (overridePipeline (fun _ => 0) (fun _ => (0:ℚ)) (fun q => q)
                false pW2).CONFIGURACION (some projW2out.mes) : ℤ) : ℚ) +
        _getEffectiveSafetyStock (fun _ => (0:ℚ)) (fun q => q)
          (overridePipeline (fun _ => 0) (fun _ => (0:ℚ)) (fun q => q) false pW2)
          (some projW2out.mes))| ≤ 1 / 100 := by
  have hlist : (overridePipeline (fun _ => 0) (fun _ => (0:ℚ)) (fun q => q)
      false pW2).PROYECCIONES = [projW2out] := by
    norm_num [overridePipeline, applyEffectiveParams, _getEffectiveSafetyStock,
      _calculateDynamicSafetyStock, _calculateZFactor, _getEffectiveLeadTime,
      effLeadTimeDefault, ssOverrideTruthy, _recalculateProjections, recalcTransit,
      mergedOrders, manualPedidos, sortByArrival, buildTransit, recalcAux, recalcOne,
      simulateMonth,
      dayRange, simDayStep, arrivalsOn, _updateMonthlyProjectionTotals,
      _updateMainProductMetrics, round2, pW2, projW2out, List.range_succ,
      defaultLeadTimeDays]
  have hmem : projW2out ∈ (overridePipeline (fun _ => 0) (fun _ => (0:ℚ)) (fun q => q)
      false pW2).PROYECCIONES := by
    rw [hlist]
    exact List.mem_singleton.mpr rfl
  exact ⟨hmem, spec_c2_reorder_point_invariant (fun _ => 0) (fun _ => (0:ℚ)) (fun q => q)
    false pW2 projW2out hmem⟩

/-- A month whose start is no later than its end has at least one day. -/
theorem dayRange_ne_nil {a b : ℤ} (h : a ≤ b) : dayRange a b ≠ [] := by
  intro hnil
  have hlen : (dayRange a b).length = (b + 1 - a).toNat := by
    unfold dayRange
    rw [List.length_map, List.length_range]
  rw [hnil] at hlen
  simp only [List.length_nil] at hlen
  omega

/-- The month loop produces one output projection per input projection. -/
theorem recalcAux_length (z sqrtFn : ℚ → ℚ) (p : Product) (o : List Pedido) (t : ℤ → ℚ) :
    ∀ (projs : List Projection) (x : ℚ),
      (recalcAux z sqrtFn p o t x projs).length = projs.length := by
  intro projs
  induction projs with
  | nil => intro x; rfl
  | cons pr rest ih =>
      intro x
      simp only [recalcAux, List.length_cons, ih]

/-- A nonempty daily walk ends on an entry whose recorded stock is the
2-decimal rounding of the running stock. -/
theorem simFold_last (o : List Pedido) (t : ℤ → ℚ) (c : ℚ) :
    ∀ (days : List ℤ) (st : ℚ × List DailyEntry), days ≠ [] →
      ∃ d s, ((days.foldl (simDayStep o t c) st).2).getLast? =
        some { fecha := d, stock_proyectado := round2 s,
               unidades_en_transito := round2 (t d),
               stock_total_proyectado := round2 (s + t d) } := by
  intro days
  induction days with
  | nil => intro st h; exact absurd rfl h
  | cons d rest ih =>
      intro st _
      cases rest with
      | nil =>
          refine ⟨d, max 0 (st.1 + arrivalsOn o d - c), ?_⟩
          simp [simDayStep]
      | cons d2 tl =>
          rw [List.foldl_cons]
          exact ih _ (by simp)

/-- Chaining across the month loop: the first output month starts at the seed
value, and every later month starts exactly at the previous month's ending
stock (months each having at least one day). -/
theorem recalcAux_chain (z sqrtFn : ℚ → ℚ) (p : Product) (o : List Pedido) (t : ℤ → ℚ) :
    ∀ (projs : List Projection) (x : ℚ),
      (∀ proj ∈ projs, proj.fecha_inicio_mes ≤ proj.fecha_fin_mes) →
      ((recalcAux z sqrtFn p o t x projs ≠ [] →
        ((recalcAux z sqrtFn p o t x projs).getD 0 projDefault).stock_inicial_mes = x) ∧
       (∀ i, i + 1 < (recalcAux z sqrtFn p o t x projs).length →
        ((recalcAux z sqrtFn p o t x projs).getD (i + 1) projDefault).stock_inicial_mes =
          ((recalcAux z sqrtFn p o t x projs).getD i projDefault).stock_proyectado_mes)) := by
  intro projs
  induction projs with
  | nil =>
      intro x h
      constructor
      · intro hne; exact absurd rfl hne
      · intro i hi; simp [recalcAux] at hi
  | cons pr rest ih =>
      intro x h
      have hpr : pr.fecha_inicio_mes ≤ pr.fecha_fin_mes := h pr (List.mem_cons_self _ _)
      have hdays : dayRange pr.fecha_inicio_mes pr.fecha_fin_mes ≠ [] := dayRange_ne_nil hpr
      obtain ⟨d, s, hlast⟩ :=
        simFold_last o t pr.consumo_diario (dayRange pr.fecha_inicio_mes pr.fecha_fin_mes)
          (x, []) hdays
      have hlast2 : (simulateMonth o t pr x).2.getLast? =
          some { fecha := d, stock_proyectado := round2 s,
                 unidades_en_transito := round2 (t d),
                 stock_total_proyectado := round2 (s + t d) } := hlast
      have hini : (recalcOne z sqrtFn p o t x pr).stock_inicial_mes = x := by
        simp only [recalcOne]
        cases hl : (simulateMonth o t pr x).2.getLast? with
        | none => rfl
        | some u => rfl
      have hmesfix : (recalcOne z sqrtFn p o t x pr).stock_proyectado_mes = round2 s := by
        simp only [recalcOne]
        cases hl : (simulateMonth o t pr x).2.getLast? with
        | none =>
            rw [hl] at hlast2
            exact absurd hlast2 (by simp)
        | some u =>
            rw [hl] at hlast2
            injection hlast2 with hu
            subst hu
            rfl
      constructor
      · intro _
        simp only [recalcAux, List.getD_cons_zero]
        exact hini
      · intro i hi
        simp only [recalcAux] at hi ⊢
        cases i with
        | zero =>
            simp only [List.getD_cons_succ, List.getD_cons_zero]
            rw [List.length_cons, hmesfix, round2_idem] at hi
            rw [hmesfix, round2_idem]
            have hne : recalcAux z sqrtFn p o t (round2 s) rest ≠ [] := by
              intro hnil
              rw [hnil] at hi
              simp at hi
            exact (ih (round2 s) (fun q hq => h q (List.mem_cons_of_mem _ hq))).1 hne
        | succ j =>
            simp only [List.getD_cons_succ]
            rw [List.length_cons, hmesfix, round2_idem] at hi
            rw [hmesfix, round2_idem]
            exact (ih (round2 s) (fun q hq => h q (List.mem_cons_of_mem _ hq))).2 j (by omega)

/-- **C3.**  Monthly chaining after the Daily Stock Simulator: each month's
starting stock equals the previous month's ending stock exactly
(post-rounding), and the first month starts at the product's total stock. -/
theorem spec_c3_monthly_chaining (z sqrtFn : ℚ → ℚ) (p : Product)
    (hmonths : ∀ proj ∈ p.PROYECCIONES, proj.fecha_inicio_mes ≤ proj.fecha_fin_mes) :
    ((_recalculateProjections z sqrtFn p).PROYECCIONES ≠ [] →
      (((_recalculateProjections z sqrtFn p).PROYECCIONES).getD 0
        projDefault).stock_inicial_mes = p.STOCK_TOTAL) ∧
    (∀ i, i + 1 < (_recalculateProjections z sqrtFn p).PROYECCIONES.length →
      (((_recalculateProjections z sqrtFn p).PROYECCIONES).getD (i + 1)
        projDefault).stock_inicial_mes =
      (((_recalculateProjections z sqrtFn p).PROYECCIONES).getD i
        projDefault).stock_proyectado_mes) :=
  recalcAux_chain z sqrtFn p _ _ p.PROYECCIONES p.STOCK_TOTAL hmonths

/-- **C3 — witness.** -/
theorem spec_c3_witness :
    (((_recalculateProjections (fun _ => 0) (fun q => q) pW3).PROYECCIONES).getD 1
      projDefault).stock_inicial_mes =
    (((_recalculateProjections (fun _ => 0) (fun q => q) pW3).PROYECCIONES).getD 0
      projDefault).stock_proyectado_mes ∧
    (((_recalculateProjections (fun _ => 0) (fun q => q) pW3).PROYECCIONES).getD 0
      projDefault).stock_inicial_mes = 10 := by
  have hm : ∀ proj ∈ pW3.PROYECCIONES, proj.fecha_inicio_mes ≤ proj.fecha_fin_mes := by
    decide
  have h := spec_c3_monthly_chaining (fun _ => 0) (fun q => q) pW3 hm
  have hlen : (_recalculateProjections (fun _ => 0) (fun q => q) pW3).PROYECCIONES.length =
      2 := by
    show (recalcAux _ _ _ _ _ _ _).length = 2
    rw [recalcAux_length]
    rfl
  refine ⟨h.2 0 (by omega), h.1 ?_⟩
  intro hnil
  rw [hnil] at hlen
  simp at hlen

/-- Recomputing a month does not change any field the simulator reads. -/
theorem recalcOne_inputView (z sqrtFn : ℚ → ℚ) (p : Product) (o : List Pedido) (t : ℤ → ℚ)
    (x : ℚ) (pr : Projection) :
    inputView (recalcOne z sqrtFn p o t x pr) = inputView pr := by
  simp only [recalcOne]
  cases hl : (simulateMonth o t pr x).2.getLast? with
  | none => rfl
  | some u => rfl

/-- The month loop does not change any field the simulator reads. -/
theorem recalcAux_inputView (z sqrtFn : ℚ → ℚ) (p : Product) (o : List Pedido) (t : ℤ → ℚ) :
    ∀ (projs : List Projection) (x : ℚ),
      (recalcAux z sqrtFn p o t x projs).map inputView = projs.map inputView := by
  intro projs
  induction projs with
  | nil => intro x; rfl
  | cons pr rest ih =>
      intro x
      simp only [recalcAux, List.map_cons]
      rw [recalcOne_inputView, ih]

/-- The daily walk of a month only reads the month's input-view fields. -/
theorem simulateMonth_congr (o : List Pedido) (t : ℤ → ℚ) (pr1 pr2 : Projection) (x : ℚ)
    (h : inputView pr1 = inputView pr2) :
    simulateMonth o t pr1 x = simulateMonth o t pr2 x := by
  have h2 : pr1.fecha_inicio_mes = pr2.fecha_inicio_mes :=
    congrArg (fun v => v.2.1) h
  have h3 : pr1.fecha_fin_mes = pr2.fecha_fin_mes :=
    congrArg (fun v => v.2.2.1) h
  have h4 : pr1.consumo_diario = pr2.consumo_diario :=
    congrArg (fun v => v.2.2.2.1) h
  unfold simulateMonth
  rw [h2, h3, h4]

/-- The monthly-totals update only reads the configuration and `SIGMA_D` of
the ambient product. -/
theorem updateTotals_congr (z sqrtFn : ℚ → ℚ) (p q : Product)
    (hc : p.CONFIGURACION = q.CONFIGURACION) (hsig : p.SIGMA_D = q.SIGMA_D)
    (pr : Projection) (u : DailyEntry) :
    _updateMonthlyProjectionTotals z sqrtFn p pr u =
      _updateMonthlyProjectionTotals z sqrtFn q pr u := by
  unfold _updateMonthlyProjectionTotals
  rw [effSS_congr z sqrtFn p q hc hsig, hc]

/-- The merged order list only reads the pending orders and the projections'
attached alerts. -/
theorem mergedOrders_congr (p q : Product)
    (hped : p.PEDIDOS_POR_LLEGAR = q.PEDIDOS_POR_LLEGAR)
    (halerts : p.PROYECCIONES.map inputView = q.PROYECCIONES.map inputView) :
    mergedOrders p = mergedOrders q := by
  unfold mergedOrders manualPedidos
  rw [hped]
  have h1 : p.PROYECCIONES.map (fun pr => pr.alertas_y_pedidos) =
      q.PROYECCIONES.map (fun pr => pr.alertas_y_pedidos) := by
    have h2 := congrArg (List.map (fun v : ℤ × ℤ × ℤ × ℚ × List Pedido => v.2.2.2.2)) halerts
    simpa [List.map_map, Function.comp, inputView] using h2
  rw [List.flatMap_def, List.flatMap_def, h1]

/-- The in-transit map only reads the merged orders and the start date. -/
theorem buildTransit_congr (p q : Product) (hord : mergedOrders p = mergedOrders q)
    (hfi : p.FECHA_INICIAL = q.FECHA_INICIAL) (days : List ℤ) :
    buildTransit p days = buildTransit q days := by
  unfold buildTransit transitStart
  rw [hord, hfi]

/-- Equal input views give equal last-month end dates. -/
theorem getLast_fin_congr (l l' : List Projection)
    (h : l.map inputView = l'.map inputView) :
    l.getLast?.map (fun pr => pr.fecha_fin_mes) =
      l'.getLast?.map (fun pr => pr.fecha_fin_mes) := by
  have h2 : l.map (fun pr => pr.fecha_fin_mes) = l'.map (fun pr => pr.fecha_fin_mes) := by
    have h3 := congrArg (List.map (fun v : ℤ × ℤ × ℤ × ℚ × List Pedido => v.2.2.1)) h
    simpa [List.map_map, Function.comp, inputView] using h3
  rw [← List.getLast?_map, ← List.getLast?_map, h2]

/-- Recomputing an already recomputed month is a no-op. -/
theorem recalcOne_idem (z sqrtFn : ℚ → ℚ) (p q : Product)
    (hc : q.CONFIGURACION = p.CONFIGURACION) (hsig : q.SIGMA_D = p.SIGMA_D)
    (o : List Pedido) (t : ℤ → ℚ) (x : ℚ) (pr : Projection) :
    recalcOne z sqrtFn q o t x (recalcOne z sqrtFn p o t x pr) =
      recalcOne z sqrtFn p o t x pr := by
  cases hl : (simulateMonth o t pr x).2.getLast? with
  | none =>
      have hu : recalcOne z sqrtFn p o t x pr =
          { pr with stock_inicial_mes := x,
                    stock_diario_proyectado := (simulateMonth o t pr x).2 } := by
        simp only [recalcOne, hl]
      rw [hu]
      have hsim2 : simulateMonth o t
          ({ pr with stock_inicial_mes := x,
                     stock_diario_proyectado := (simulateMonth o t pr x).2 }) x =
          simulateMonth o t pr x :=
        simulateMonth_congr o t _ _ x rfl
      simp only [recalcOne, hsim2, hl]
  | some u =>
      have hu : recalcOne z sqrtFn p o t x pr =
          _updateMonthlyProjectionTotals z sqrtFn p
            { pr with stock_inicial_mes := x,
                      stock_diario_proyectado := (simulateMonth o t pr x).2 } u := by
        simp only [recalcOne, hl]
      rw [hu]
      have hsim2 : simulateMonth o t
          (_updateMonthlyProjectionTotals z sqrtFn p
            { pr with stock_inicial_mes := x,
                      stock_diario_proyectado := (simulateMonth o t pr x).2 } u) x =
          simulateMonth o t pr x :=
        simulateMonth_congr o t _ _ x rfl
      simp only [recalcOne, hsim2, hl]
      rw [updateTotals_congr z sqrtFn q p hc hsig]
      rfl

/-- Re-running the month loop over its own output is a no-op. -/
theorem recalcAux_idem (z sqrtFn : ℚ → ℚ) (p q : Product)
    (hc : q.CONFIGURACION = p.CONFIGURACION) (hsig : q.SIGMA_D = p.SIGMA_D)
    (o : List Pedido) (t : ℤ → ℚ) :
    ∀ (projs : List Projection) (x : ℚ),
      recalcAux z sqrtFn q o t x (recalcAux z sqrtFn p o t x projs) =
        recalcAux z sqrtFn p o t x projs := by
  intro projs
  induction projs with
  | nil => intro x; rfl
  | cons pr rest ih =>
      intro x
      show recalcAux z sqrtFn q o t x
          (recalcOne z sqrtFn p o t x pr ::
            recalcAux z sqrtFn p o t
              (round2 (recalcOne z sqrtFn p o t x pr).stock_proyectado_mes) rest) = _
      have hstep : ∀ (P : Product) (y : ℚ) (a : Projection) (l : List Projection),
          recalcAux z sqrtFn P o t y (a :: l) =
            recalcOne z sqrtFn P o t y a ::
              recalcAux z sqrtFn P o t
                (round2 (recalcOne z sqrtFn P o t y a).stock_proyectado_mes) l :=
        fun _ _ _ _ => rfl
      rw [hstep q, recalcOne_idem z sqrtFn p q hc hsig, ih]
      exact (hstep p x pr rest).symm

/-- **C9.**  Idempotence of the Daily Stock Simulator: running the projection
recalculation twice in a row (no intervening override) produces the exact
same product — every daily trajectory entry and every monthly summary field
unchanged. -/
theorem spec_c9_idempotent (z sqrtFn : ℚ → ℚ) (p : Product) :
    _recalculateProjections z sqrtFn (_recalculateProjections z sqrtFn p) =
      _recalculateProjections z sqrtFn p := by
  have hview : (_recalculateProjections z sqrtFn p).PROYECCIONES.map inputView =
      p.PROYECCIONES.map inputView :=
    recalcAux_inputView z sqrtFn p _ _ p.PROYECCIONES p.STOCK_TOTAL
  have horders : mergedOrders (_recalculateProjections z sqrtFn p) = mergedOrders p :=
    mergedOrders_congr _ _ rfl hview
  have hfin := getLast_fin_congr _ _ hview
  have htransit : recalcTransit (_recalculateProjections z sqrtFn p) = recalcTransit p := by
    unfold recalcTransit
    cases hpl : p.PROYECCIONES.getLast? with
    | none =>
        cases hpl2 : (_recalculateProjections z sqrtFn p).PROYECCIONES.getLast? with
        | none => simp only [hpl, hpl2]
        | some lp =>
            rw [hpl, hpl2] at hfin
            simp at hfin
    | some lastP =>
        cases hpl2 : (_recalculateProjections z sqrtFn p).PROYECCIONES.getLast? with
        | none =>
            rw [hpl, hpl2] at hfin
            simp at hfin
        | some lp =>
            rw [hpl, hpl2] at hfin
            have hfe : lp.fecha_fin_mes = lastP.fecha_fin_mes := by
              simp only [Option.map_some'] at hfin
              injection hfin
            have hfi : (_recalculateProjections z sqrtFn p).FECHA_INICIAL =
                p.FECHA_INICIAL := rfl
            simp only [hpl, hpl2, hfe, hfi]
            rw [buildTransit_congr (_recalculateProjections z sqrtFn p) p horders rfl]
  have hP2 : (_recalculateProjections z sqrtFn
      (_recalculateProjections z sqrtFn p)).PROYECCIONES =
      (_recalculateProjections z sqrtFn p).PROYECCIONES := by
    show recalcAux z sqrtFn (_recalculateProjections z sqrtFn p)
        (mergedOrders (_recalculateProjections z sqrtFn p))
        (recalcTransit (_recalculateProjections z sqrtFn p))
        (_recalculateProjections z sqrtFn p).STOCK_TOTAL
        (_recalculateProjections z sqrtFn p).PROYECCIONES =
      (_recalculateProjections z sqrtFn p).PROYECCIONES
    rw [horders, htransit]
    show recalcAux z sqrtFn (_recalculateProjections z sqrtFn p) (mergedOrders p)
        (recalcTransit p) p.STOCK_TOTAL
        (recalcAux z sqrtFn p (mergedOrders p) (recalcTransit p) p.STOCK_TOTAL
          p.PROYECCIONES) =
      (_recalculateProjections z sqrtFn p).PROYECCIONES
    rw [recalcAux_idem z sqrtFn p (_recalculateProjections z sqrtFn p) rfl rfl]
    rfl
  have hsetP : ∀ (P : Product) (l : List Projection), l = P.PROYECCIONES →
      { P with PROYECCIONES := l } = P := by
    intro P l hl
    rw [hl]
  have hfinal := hsetP (_recalculateProjections z sqrtFn p) _ hP2
  exact hfinal

/-- Unfolding one step of assoc-list lookup. -/
theorem lookup_cons {β : Type} (a k1 : ℤ) (v1 : β) (tl : List (ℤ × β)) :
    ((k1, v1) :: tl).lookup a = if (a == k1) then some v1 else tl.lookup a := by
  cases h : a == k1 <;> simp [List.lookup, h]

/-- Rewriting the value stored under key `k` does not disturb other keys. -/
theorem lookup_map_setkey {β : Type} (k k2 : ℤ) (v : β) (hne : k2 ≠ k) :
    ∀ l : List (ℤ × β),
      (l.map (fun kv => if kv.1 == k then (k, v) else kv)).lookup k2 = l.lookup k2 := by
  intro l
  induction l with
  | nil => rfl
  | cons kv tl ih =>
      obtain ⟨k1, v1⟩ := kv
      simp only [List.map_cons]
      by_cases hk : k1 = k
      · subst hk
        have hh : (if (((k1, v1) : ℤ × β).1 == k1) then ((k1, v) : ℤ × β) else (k1, v1)) = (k1, v) := by
          simp
        rw [hh, lookup_cons, lookup_cons, ih]
        have h0 : (k2 == k1) = false := by simp [hne]
        rw [h0]
        simp
      · have hh : (if (((k1, v1) : ℤ × β).1 == k) then ((k, v) : ℤ × β) else (k1, v1)) = (k1, v1) := by
          simp [hk]
        rw [hh, lookup_cons, lookup_cons, ih]

/-- Rewriting the value stored under a present key `k` makes lookups of `k` return the new value. -/
theorem lookup_map_setkey_self {β : Type} (k : ℤ) (v : β) :
    ∀ l : List (ℤ × β), (l.lookup k).isSome →
      (l.map (fun kv => if kv.1 == k then (k, v) else kv)).lookup k = some v := by
  intro l
  induction l with
  | nil => intro h; simp [List.lookup] at h
  | cons kv tl ih =>
      intro h
      obtain ⟨k1, v1⟩ := kv
      simp only [List.map_cons]
      by_cases hk : k1 = k
      · subst hk
        have hh : (if (((k1, v1) : ℤ × β).1 == k1) then ((k1, v) : ℤ × β) else (k1, v1)) = (k1, v) := by
          simp
        rw [hh, lookup_cons]
        simp
      · have hh : (if (((k1, v1) : ℤ × β).1 == k) then ((k, v) : ℤ × β) else (k1, v1)) = (k1, v1) := by
          simp [hk]
        have h0 : (k == k1) = false := by
          cases hq : k == k1
          · rfl
          · exact absurd (by simpa using hq : k = k1) (fun he => hk he.symm)
        rw [lookup_cons, h0] at h
        rw [hh, lookup_cons, h0]
        exact ih (by simpa using h)

/-- Appending a fresh key at the end: the new key is found, others unchanged. -/
theorem lookup_append_single {β : Type} (k k2 : ℤ) (v : β) :
    ∀ l : List (ℤ × β), l.lookup k = none →
      (l ++ [(k, v)]).lookup k2 = if k2 = k then some v else l.lookup k2 := by
  intro l
  induction l with
  | nil =>
      intro _
      by_cases he : k2 = k
      · simp [lookup_cons, he]
      · have h0 : (k2 == k) = false := by simp [he]
        simp [lookup_cons, h0, he, List.lookup]
  | cons kv tl ih =>
      intro hnone
      obtain ⟨k1, v1⟩ := kv
      rw [lookup_cons] at hnone
      have hk : (k == k1) = false := by
        cases hq : k == k1
        · rfl
        · rw [hq] at hnone; simp at hnone
      rw [hk] at hnone
      simp only [List.cons_append]
      rw [lookup_cons, lookup_cons]
      cases hq2 : k2 == k1
      · simp only [if_neg (by simp : ¬ (false = true))] at *
        exact ih hnone
      · have he : k2 = k1 := by simpa using hq2
        have h5 : ¬ (k2 = k) := by
          intro hx
          rw [hx] at he
          simp [he] at hk
        simp [h5]

/-- `setOv` semantics: the written key maps to the new value, others keep their previous binding. -/
theorem lookup_setOv {β : Type} (l : List (ℤ × β)) (k k2 : ℤ) (v : β) :
    (setOv l k v).lookup k2 = if k2 = k then some v else l.lookup k2 := by
  unfold setOv
  by_cases hp : (l.lookup k).isSome
  · rw [if_pos hp]
    by_cases he : k2 = k
    · subst he
      rw [if_pos rfl]
      exact lookup_map_setkey_self k2 v l hp
    · rw [if_neg he]
      exact lookup_map_setkey k k2 v he l
  · rw [if_neg hp]
    have hn : l.lookup k = none := by
      cases h : l.lookup k
      · rfl
      · exact absurd (by simp [h]) hp
    exact lookup_append_single k k2 v l hn

/-- `_getEffectiveLeadTime` depends only on the lead-time fields of the
configuration. -/
theorem effLT_congr (c1 c2 : Config) (h1 : c1.OV_LEAD_TIME = c2.OV_LEAD_TIME)
    (h2 : c1.LEAD_TIME_DAYS = c2.LEAD_TIME_DAYS) (mk : Option ℤ) :
    _getEffectiveLeadTime c1 mk = _getEffectiveLeadTime c2 mk := by
  unfold _getEffectiveLeadTime effLeadTimeDefault
  rw [h1, h2]

/-- Writing a safety-stock override does not change the effective lead time. -/
theorem effLT_withSSOverride (p : Product) (k : ℤ) (v : ℚ) (mk : Option ℤ) :
    _getEffectiveLeadTime (withSSOverride p k v).CONFIGURACION mk =
      _getEffectiveLeadTime p.CONFIGURACION mk :=
  effLT_congr _ _ rfl rfl mk

/-- A freshly written nonzero safety-stock override is the effective safety
stock of its month. -/
theorem effSS_withSSOverride_self (z sqrtFn : ℚ → ℚ) (p : Product) (k : ℤ) (v : ℚ)
    (hv : v ≠ 0) :
    _getEffectiveSafetyStock z sqrtFn (withSSOverride p k v) (some k) = v := by
  have hl : (withSSOverride p k v).CONFIGURACION.OV_SAFETY_STOCK.lookup k = some v := by
    show (setOv p.CONFIGURACION.OV_SAFETY_STOCK k v).lookup k = some v
    rw [lookup_setOv, if_pos rfl]
  unfold _getEffectiveSafetyStock
  simp only [hl, if_pos hv]

/-- Writing a safety-stock override for month `k` leaves the effective safety
stock of every other month unchanged. -/
theorem effSS_withSSOverride_other (z sqrtFn : ℚ → ℚ) (p : Product) (k : ℤ) (v : ℚ)
    (m : ℤ) (hm : m ≠ k) :
    _getEffectiveSafetyStock z sqrtFn (withSSOverride p k v) (some m) =
      _getEffectiveSafetyStock z sqrtFn p (some m) := by
  have hl : (withSSOverride p k v).CONFIGURACION.OV_SAFETY_STOCK.lookup m =
      p.CONFIGURACION.OV_SAFETY_STOCK.lookup m := by
    show (setOv p.CONFIGURACION.OV_SAFETY_STOCK k v).lookup m = _
    rw [lookup_setOv, if_neg hm]
  unfold _getEffectiveSafetyStock
  cases hc : p.CONFIGURACION.OV_SAFETY_STOCK.lookup m with
  | none =>
      rw [hc] at hl
      simp only [hl, hc]
      rfl
  | some w =>
      rw [hc] at hl
      simp only [hl, hc]
      rfl

/-- Appending to a nonempty alert list does not change the first alert date. -/
theorem firstAlertDate_append (l : List Pedido) (x : Pedido) (h : l ≠ []) :
    firstAlertDate (l ++ [x]) = firstAlertDate l := by
  cases l with
  | nil => exact absurd rfl h
  | cons a t => rfl

/-- A regenerator step either leaves the alert list unchanged or appends one
alert dated the processed day. -/
theorem regenStep_alerts_shape (mk : ℤ → ℤ) (p : Product) (st : RegenState) (d : ℤ) :
    (regenStep mk p st d).alerts = st.alerts ∨
    ∃ x : Pedido, x.fecha_alerta = some d ∧
      (regenStep mk p st d).alerts = st.alerts ++ [x] := by
  cases hf : p.PROYECCIONES.find? (fun pr => pr.mes == mk d) with
  | none =>
      left
      simp only [regenStep, hf]
  | some proj =>
      simp only [regenStep, hf]
      by_cases h1 : st.tot + arrivalsOn (manualPedidos p) d ≤ proj.punto_reorden
      · by_cases h2 : 0 < regenUnits p proj (st.tot + arrivalsOn (manualPedidos p) d)
            (_getEffectiveLeadTime p.CONFIGURACION (some (mk d)))
        · right
          refine ⟨regenAlert p proj (st.tot + arrivalsOn (manualPedidos p) d)
            (_getEffectiveLeadTime p.CONFIGURACION (some (mk d))) d, rfl, ?_⟩
          rw [if_pos h1, if_pos h2]
        · left
          rw [if_pos h1, if_neg h2]
      · left
        rw [if_neg h1]

/-- Reducing one regenerator step when a projection is found and the alert
condition holds. -/
theorem regenStep_found_fires (mk : ℤ → ℤ) (p : Product) (st : RegenState) (d : ℤ)
    (proj : Projection)
    (hf : p.PROYECCIONES.find? (fun pr => pr.mes == mk d) = some proj)
    (hc : st.tot + arrivalsOn (manualPedidos p) d ≤ proj.punto_reorden)
    (hu : 0 < regenUnits p proj (st.tot + arrivalsOn (manualPedidos p) d)
        (_getEffectiveLeadTime p.CONFIGURACION (some (mk d)))) :
    regenStep mk p st d =
      { fis := max 0 (st.fis + arrivalsOn (manualPedidos p) d - proj.consumo_diario),
        tot := max 0 (st.tot + arrivalsOn (manualPedidos p) d +
          regenUnits p proj (st.tot + arrivalsOn (manualPedidos p) d)
            (_getEffectiveLeadTime p.CONFIGURACION (some (mk d))) - proj.consumo_diario),
        alerts := st.alerts ++ [regenAlert p proj (st.tot + arrivalsOn (manualPedidos p) d)
          (_getEffectiveLeadTime p.CONFIGURACION (some (mk d))) d] } := by
  simp only [regenStep, hf]
  rw [if_pos hc, if_pos hu]

/-- Reducing one regenerator step when a projection is found but the alert
condition fails. -/
theorem regenStep_found_nofire (mk : ℤ → ℤ) (p : Product) (st : RegenState) (d : ℤ)
    (proj : Projection)
    (hf : p.PROYECCIONES.find? (fun pr => pr.mes == mk d) = some proj)
    (hn : ¬(st.tot + arrivalsOn (manualPedidos p) d ≤ proj.punto_reorden ∧
      0 < regenUnits p proj (st.tot + arrivalsOn (manualPedidos p) d)
        (_getEffectiveLeadTime p.CONFIGURACION (some (mk d))))) :
    regenStep mk p st d =
      { fis := max 0 (st.fis + arrivalsOn (manualPedidos p) d - proj.consumo_diario),
        tot := max 0 (st.tot + arrivalsOn (manualPedidos p) d - proj.consumo_diario),
        alerts := st.alerts } := by
  simp only [regenStep, hf]
  by_cases h1 : st.tot + arrivalsOn (manualPedidos p) d ≤ proj.punto_reorden
  · have h2 : ¬ 0 < regenUnits p proj (st.tot + arrivalsOn (manualPedidos p) d)
        (_getEffectiveLeadTime p.CONFIGURACION (some (mk d))) := fun h => hn ⟨h1, h⟩
    rw [if_pos h1, if_neg h2]
  · rw [if_neg h1]

/-- The regenerator's boxes-to-order count is monotone in the reorder point
(for a fixed running total, consumption and units-per-box). -/
theorem regenCajas_mono (A B : Product) (prA prB : Projection) (tot : ℚ) (lt : ℤ)
    (hupb : A.UNIDADES_POR_CAJA = B.UNIDADES_POR_CAJA)
    (hcons : prA.consumo_diario = prB.consumo_diario)
    (hrop : prA.punto_reorden ≤ prB.punto_reorden) :
    regenCajas A prA tot lt ≤ regenCajas B prB tot lt := by
  unfold regenCajas
  rw [hupb, hcons]
  by_cases h : 0 < B.UNIDADES_POR_CAJA
  · rw [if_pos h, if_pos h]
    exact Int.ceil_mono ((div_le_div_iff_of_pos_right h).mpr (by linarith))
  · rw [if_neg h, if_neg h]

/-- If the smaller-reorder-point run orders a positive number of units, so
does the larger-reorder-point run. -/
theorem regenUnits_pos_mono (A B : Product) (prA prB : Projection) (tot : ℚ) (lt : ℤ)
    (hupb : A.UNIDADES_POR_CAJA = B.UNIDADES_POR_CAJA)
    (hcons : prA.consumo_diario = prB.consumo_diario)
    (hrop : prA.punto_reorden ≤ prB.punto_reorden)
    (hpos : 0 < regenUnits A prA tot lt) :
    0 < regenUnits B prB tot lt := by
  unfold regenUnits at hpos ⊢
  by_cases h : 0 < A.UNIDADES_POR_CAJA
  · have hB : (0 : ℚ) < B.UNIDADES_POR_CAJA := hupb ▸ h
    have hcA : 0 < regenCajas A prA tot lt := by
      by_contra hle
      push_neg at hle
      have hmul : (regenCajas A prA tot lt : ℚ) * A.UNIDADES_POR_CAJA ≤ 0 :=
        mul_nonpos_of_nonpos_of_nonneg (by exact_mod_cast hle) (le_of_lt h)
      linarith
    have hcB : 0 < regenCajas B prB tot lt :=
      lt_of_lt_of_le hcA (regenCajas_mono A B prA prB tot lt hupb hcons hrop)
    exact mul_pos (by exact_mod_cast hcB) hB
  · exfalso
    have hz : regenCajas A prA tot lt = 0 := by
      unfold regenCajas
      rw [if_neg (by exact_mod_cast fun hh => h (by exact_mod_cast hh))]
    rw [hz] at hpos
    simp at hpos

/-- `find?` on the month key returns pairwise-related projections (or fails
on both sides) for `RelRop`-related projection lists. -/
theorem find?_mes_rel {la lb : List Projection} (h : List.Forall₂ RelRop la lb) (key : ℤ) :
    (la.find? (fun pr => pr.mes == key) = none ∧
      lb.find? (fun pr => pr.mes == key) = none) ∨
    ∃ prA prB, la.find? (fun pr => pr.mes == key) = some prA ∧
      lb.find? (fun pr => pr.mes == key) = some prB ∧ RelRop prA prB := by
  induction h with
  | nil => exact Or.inl ⟨rfl, rfl⟩
  | @cons a b l1 l2 ha htl ih =>
      by_cases hk : a.mes = key
      · right
        refine ⟨a, b, ?_, ?_, ha⟩
        · rw [List.find?_cons_of_pos _ (by simp [hk])]
        · rw [List.find?_cons_of_pos _ (by simp [← ha.1, hk])]
      · rw [List.find?_cons_of_neg _ (by simp [hk]),
          List.find?_cons_of_neg _ (by simp [← ha.1, hk])]
        exact ih

/-- The simulated day list is sorted in ascending order. -/
theorem dayRange_pairwise (a b : ℤ) : (dayRange a b).Pairwise (· ≤ ·) := by
  unfold dayRange
  rw [List.pairwise_map]
  refine List.Pairwise.imp ?_ (List.pairwise_lt_range _)
  intro i j hij
  omega

/-- Two pairwise-related lists have related last elements (or are both
empty). -/
theorem forall₂_getLast_rel {α β : Type} {R : α → β → Prop} :
    ∀ {l : List α} {l' : List β}, List.Forall₂ R l l' →
      (l = [] ∧ l' = []) ∨
      ∃ x y, l.getLast? = some x ∧ l'.getLast? = some y ∧ R x y := by
  intro l l' h
  induction h with
  | nil => exact Or.inl ⟨rfl, rfl⟩
  | @cons a b l1 l2 ha htl ih =>
      right
      rcases ih with ⟨h1, h2⟩ | ⟨x, y, hx, hy, hR⟩
      · subst h1
        subst h2
        exact ⟨a, b, rfl, rfl, ha⟩
      · have hne1 : l1 ≠ [] := by
          intro hh
          rw [hh] at hx
          simp at hx
        have hne2 : l2 ≠ [] := by
          intro hh
          rw [hh] at hy
          simp at hy
        obtain ⟨c, t, rfl⟩ := List.exists_cons_of_ne_nil hne1
        obtain ⟨c2, t2, rfl⟩ := List.exists_cons_of_ne_nil hne2
        exact ⟨x, y, by rw [List.getLast?_cons_cons]; exact hx,
          by rw [List.getLast?_cons_cons]; exact hy, hR⟩

/-- Clearing the attached alerts preserves the `RelRop` relation between two
projection lists. -/
theorem relRop_clear_forall₂ {la lb : List Projection}
    (h : List.Forall₂ RelRop la lb) :
    List.Forall₂ RelRop (la.map (fun proj => { proj with alertas_y_pedidos := [] }))
      (lb.map (fun proj => { proj with alertas_y_pedidos := [] })) := by
  rw [List.forall₂_map_left_iff, List.forall₂_map_right_iff]
  exact h.imp (fun a b hab => hab)

/-- Raising a month's (positive) safety-stock override produces
pairwise-`RelRop` projection lists after the effective-parameter refresh:
same months, month ends and consumptions, and reorder points at least as
large on the raised side. -/
theorem applyEff_relRop (z sqrtFn : ℚ → ℚ) (p : Product) (k : ℤ) (a b : ℚ)
    (ha : 0 < a) (hab : a ≤ b) :
    List.Forall₂ RelRop
      (applyEffectiveParams z sqrtFn (withSSOverride p k a)).PROYECCIONES
      (applyEffectiveParams z sqrtFn (withSSOverride p k b)).PROYECCIONES := by
  have hb : 0 < b := lt_of_lt_of_le ha hab
  have hPa : (withSSOverride p k a).PROYECCIONES = p.PROYECCIONES := rfl
  have hPb : (withSSOverride p k b).PROYECCIONES = p.PROYECCIONES := rfl
  simp only [applyEffectiveParams, hPa, hPb]
  rw [List.forall₂_map_left_iff, List.forall₂_map_right_iff, List.forall₂_same]
  intro proj hmem
  have hlt : _getEffectiveLeadTime (withSSOverride p k a).CONFIGURACION (some proj.mes) =
      _getEffectiveLeadTime (withSSOverride p k b).CONFIGURACION (some proj.mes) := by
    rw [effLT_withSSOverride, effLT_withSSOverride]
  have hss : _getEffectiveSafetyStock z sqrtFn (withSSOverride p k a) (some proj.mes) ≤
      _getEffectiveSafetyStock z sqrtFn (withSSOverride p k b) (some proj.mes) := by
    by_cases hk : proj.mes = k
    · rw [hk, effSS_withSSOverride_self z sqrtFn p k a (ne_of_gt ha),
        effSS_withSSOverride_self z sqrtFn p k b (ne_of_gt hb)]
      exact hab
    · rw [effSS_withSSOverride_other z sqrtFn p k a proj.mes hk,
        effSS_withSSOverride_other z sqrtFn p k b proj.mes hk]
  refine ⟨rfl, rfl, rfl, ?_⟩
  show round2 (proj.consumo_diario *
      ((_getEffectiveLeadTime (withSSOverride p k a).CONFIGURACION (some proj.mes) : ℤ) : ℚ) +
      _getEffectiveSafetyStock z sqrtFn (withSSOverride p k a) (some proj.mes)) ≤
    round2 (proj.consumo_diario *
      ((_getEffectiveLeadTime (withSSOverride p k b).CONFIGURACION (some proj.mes) : ℤ) : ℚ) +
      _getEffectiveSafetyStock z sqrtFn (withSSOverride p k b) (some proj.mes))
  rw [hlt]
  exact round2_mono (by linarith)

/-- Two-run comparison of the regenerator's day fold: folding any sorted day
list preserves `RegenCmp` between a run A and a run B whose projections have
pointwise larger reorder points (all other regeneration inputs equal). -/
theorem regenFold_compare (mk : ℤ → ℤ) (A B : Product)
    (hupb : A.UNIDADES_POR_CAJA = B.UNIDADES_POR_CAJA)
    (hman : manualPedidos A = manualPedidos B)
    (hlt : ∀ m : ℤ, _getEffectiveLeadTime A.CONFIGURACION (some m) =
        _getEffectiveLeadTime B.CONFIGURACION (some m))
    (hrel : List.Forall₂ RelRop A.PROYECCIONES B.PROYECCIONES) :
    ∀ ds : List ℤ, ds.Pairwise (· ≤ ·) → ∀ stA stB : RegenState,
      RegenCmp ds stA stB →
      RegenCmp [] (ds.foldl (regenStep mk A) stA) (ds.foldl (regenStep mk B) stB) := by
  intro ds
  induction ds with
  | nil =>
      intro _ stA stB h
      exact h
  | cons d ds ih =>
      intro hp stA stB h
      simp only [List.foldl_cons]
      have hdle : ∀ d' ∈ ds, d ≤ d' := (List.pairwise_cons.mp hp).1
      refine ih (List.pairwise_cons.mp hp).2 _ _ ?_
      rcases h with ⟨hA0, hB0, htot⟩ | ⟨dB, hfB, hbd, hAalt⟩
      · rcases find?_mes_rel hrel (mk d) with ⟨hfA, hfB2⟩ | ⟨prA, prB, hfA, hfB2, hR⟩
        · have hstA : regenStep mk A stA d = stA := by simp only [regenStep, hfA]
          have hstB : regenStep mk B stB d = stB := by simp only [regenStep, hfB2]
          rw [hstA, hstB]
          exact Or.inl ⟨hA0, hB0, htot⟩
        · obtain ⟨hmes, hfin, hcons, hrop⟩ := hR
          have htotB : stB.tot + arrivalsOn (manualPedidos B) d =
              stA.tot + arrivalsOn (manualPedidos A) d := by
            rw [htot, hman]
          have hltB : _getEffectiveLeadTime B.CONFIGURACION (some (mk d)) =
              _getEffectiveLeadTime A.CONFIGURACION (some (mk d)) := (hlt (mk d)).symm
          by_cases hfire : stB.tot + arrivalsOn (manualPedidos B) d ≤ prB.punto_reorden ∧
              0 < regenUnits B prB (stB.tot + arrivalsOn (manualPedidos B) d)
                (_getEffectiveLeadTime B.CONFIGURACION (some (mk d)))
          · rw [regenStep_found_fires mk B stB d prB hfB2 hfire.1 hfire.2]
            by_cases hfireA : stA.tot + arrivalsOn (manualPedidos A) d ≤ prA.punto_reorden ∧
                0 < regenUnits A prA (stA.tot + arrivalsOn (manualPedidos A) d)
                  (_getEffectiveLeadTime A.CONFIGURACION (some (mk d)))
            · rw [regenStep_found_fires mk A stA d prA hfA hfireA.1 hfireA.2]
              right
              refine ⟨d, ?_, hdle, Or.inr ⟨d, ?_, le_refl d⟩⟩
              · show firstAlertDate (stB.alerts ++ [regenAlert B prB
                    (stB.tot + arrivalsOn (manualPedidos B) d)
                    (_getEffectiveLeadTime B.CONFIGURACION (some (mk d))) d]) = some d
                rw [hB0]
                rfl
              · show firstAlertDate (stA.alerts ++ [regenAlert A prA
                    (stA.tot + arrivalsOn (manualPedidos A) d)
                    (_getEffectiveLeadTime A.CONFIGURACION (some (mk d))) d]) = some d
                rw [hA0]
                rfl
            · rw [regenStep_found_nofire mk A stA d prA hfA hfireA]
              right
              refine ⟨d, ?_, hdle, Or.inl hA0⟩
              show firstAlertDate (stB.alerts ++ [regenAlert B prB
                  (stB.tot + arrivalsOn (manualPedidos B) d)
                  (_getEffectiveLeadTime B.CONFIGURACION (some (mk d))) d]) = some d
              rw [hB0]
              rfl
          · have hfireA : ¬(stA.tot + arrivalsOn (manualPedidos A) d ≤ prA.punto_reorden ∧
                0 < regenUnits A prA (stA.tot + arrivalsOn (manualPedidos A) d)
                  (_getEffectiveLeadTime A.CONFIGURACION (some (mk d)))) := by
              rintro ⟨h1, h2⟩
              apply hfire
              constructor
              · rw [htotB]
                exact le_trans h1 hrop
              · rw [htotB, hltB]
                exact regenUnits_pos_mono A B prA prB _ _ hupb hcons hrop h2
            rw [regenStep_found_nofire mk A stA d prA hfA hfireA,
              regenStep_found_nofire mk B stB d prB hfB2 hfire]
            refine Or.inl ⟨hA0, hB0, ?_⟩
            show max 0 (stA.tot + arrivalsOn (manualPedidos A) d - prA.consumo_diario) =
              max 0 (stB.tot + arrivalsOn (manualPedidos B) d - prB.consumo_diario)
            rw [htotB, hcons]
      · have hBne : stB.alerts ≠ [] := by
          intro hh
          rw [hh] at hfB
          simp [firstAlertDate] at hfB
        have hfB' : firstAlertDate (regenStep mk B stB d).alerts = some dB := by
          rcases regenStep_alerts_shape mk B stB d with hsh | ⟨x, hx, hsh⟩
          · rw [hsh]
            exact hfB
          · rw [hsh, firstAlertDate_append _ _ hBne]
            exact hfB
        right
        refine ⟨dB, hfB', fun d' hd' => hbd d' (List.mem_cons_of_mem _ hd'), ?_⟩
        rcases hAalt with hA0 | ⟨dA, hfA, hle⟩
        · rcases regenStep_alerts_shape mk A stA d with hsh | ⟨x, hx, hsh⟩
          · left
            rw [hsh]
            exact hA0
          · right
            refine ⟨d, ?_, hbd d (List.mem_cons_self d ds)⟩
            rw [hsh, hA0]
            simp [firstAlertDate, hx]
        · have hAne : stA.alerts ≠ [] := by
            intro hh
            rw [hh] at hfA
            simp [firstAlertDate] at hfA
          right
          refine ⟨dA, ?_, hle⟩
          rcases regenStep_alerts_shape mk A stA d with hsh | ⟨x, hx, hsh⟩
          · rw [hsh]
            exact hfA
          · rw [hsh, firstAlertDate_append _ _ hAne]
            exact hfA

/-- Full-regenerator comparison: with equal start date, stock, units-per-box,
manual orders, and lead times, and pointwise larger reorder points on run B,
run B's first regenerated alert exists whenever run A's does and is dated no
later than run A's. -/
theorem regen_compare (mk : ℤ → ℤ) (A B : Product)
    (hini : A.FECHA_INICIAL = B.FECHA_INICIAL)
    (hst : A.STOCK_TOTAL = B.STOCK_TOTAL)
    (hupb : A.UNIDADES_POR_CAJA = B.UNIDADES_POR_CAJA)
    (hman : manualPedidos A = manualPedidos B)
    (hlt : ∀ m : ℤ, _getEffectiveLeadTime A.CONFIGURACION (some m) =
        _getEffectiveLeadTime B.CONFIGURACION (some m))
    (hrel : List.Forall₂ RelRop A.PROYECCIONES B.PROYECCIONES) :
    ((firstAlertDate (_regenerateAlertsAndOrders mk A)).isSome →
      (firstAlertDate (_regenerateAlertsAndOrders mk B)).isSome) ∧
    ∀ dA dB, firstAlertDate (_regenerateAlertsAndOrders mk A) = some dA →
      firstAlertDate (_regenerateAlertsAndOrders mk B) = some dB → dB ≤ dA := by
  rcases forall₂_getLast_rel hrel with ⟨h1, h2⟩ | ⟨lA, lB, hgA, hgB, hRl⟩
  · have hA : _regenerateAlertsAndOrders mk A = [] := by
      simp [_regenerateAlertsAndOrders, h1]
    refine ⟨?_, ?_⟩
    · intro hs
      rw [hA] at hs
      simp [firstAlertDate] at hs
    · intro dA dB hfa hfb
      rw [hA] at hfa
      simp [firstAlertDate] at hfa
  · unfold _regenerateAlertsAndOrders
    simp only [hgA, hgB]
    have hday : dayRange B.FECHA_INICIAL lB.fecha_fin_mes =
        dayRange A.FECHA_INICIAL lA.fecha_fin_mes := by
      rw [← hini, ← (hRl.2.1 : lA.fecha_fin_mes = lB.fecha_fin_mes)]
    rw [hday]
    have hcmp := regenFold_compare mk A B hupb hman hlt hrel
      (dayRange A.FECHA_INICIAL lA.fecha_fin_mes) (dayRange_pairwise _ _)
      { fis := A.STOCK_TOTAL, tot := A.STOCK_TOTAL, alerts := [] }
      { fis := B.STOCK_TOTAL, tot := B.STOCK_TOTAL, alerts := [] }
      (Or.inl ⟨rfl, rfl, hst⟩)
    rcases hcmp with ⟨hA0, hB0, _⟩ | ⟨dB0, hfB0, _, hAalt⟩
    · refine ⟨?_, ?_⟩
      · intro hs
        rw [hA0] at hs
        simp [firstAlertDate] at hs
      · intro dA dB hfa hfb
        rw [hA0] at hfa
        simp [firstAlertDate] at hfa
    · refine ⟨?_, ?_⟩
      · intro hs
        rw [hfB0]
        rfl
      · intro dA dB hfa hfb
        rcases hAalt with hA0 | ⟨dA0, hfA0, hle⟩
        · rw [hA0] at hfa
          simp [firstAlertDate] at hfa
        · have h3 : dA0 = dA := by
            rw [hfA0] at hfa
            exact Option.some.inj hfa
          have h4 : dB0 = dB := by
            rw [hfB0] at hfb
            exact Option.some.inj hfb
          omega

/-- **C6 — counterexample.**  The claim says a strictly larger safety-stock
override strictly increases the month's reorder point and can only delay or
remove the month's regenerated alert.  Both parts fail in the code.  (1) The
reorder point is stored rounded to 2 decimals (`parseFloat(....toFixed(2))`),
so raising the override from 0.001 to 0.002 leaves the reorder point at 2.00:
no strict increase.  (2) A larger override raises the reorder point, so the
running stock reaches it sooner: raising the override from 3 to 5 on a
stock-6, consumption-1/day product moves the first regenerated alert from
day 1 to day 0 — a strictly earlier alert, the opposite of a delay. -/
theorem spec_c6_counterexample :
    ((1 : ℚ) / 1000 < 1 / 500 ∧
      (overridePipeline (fun _ => 0) (fun _ => (0 : ℚ)) (fun q => q) true
          (withSSOverride pW6 0 (1 / 1000))).PROYECCIONES.map
            (fun pr => pr.punto_reorden) = [2] ∧
      (overridePipeline (fun _ => 0) (fun _ => (0 : ℚ)) (fun q => q) true
          (withSSOverride pW6 0 (1 / 500))).PROYECCIONES.map
            (fun pr => pr.punto_reorden) = [2]) ∧
    ((3 : ℚ) < 5 ∧
      firstAlertDate (_regenerateAlertsAndOrders (fun _ => 0)
        (clearAlerts (applyEffectiveParams (fun _ => (0 : ℚ)) (fun q => q)
          (withSSOverride pW6 0 3)))) = some 1 ∧
      firstAlertDate (_regenerateAlertsAndOrders (fun _ => 0)
        (clearAlerts (applyEffectiveParams (fun _ => (0 : ℚ)) (fun q => q)
          (withSSOverride pW6 0 5)))) = some 0 ∧
      (0 : ℤ) < 1) := by
  refine ⟨⟨by norm_num, ?_, ?_⟩, by norm_num, ?_, ?_, by norm_num⟩ <;>
    norm_num [overridePipeline, applyEffectiveParams, _getEffectiveSafetyStock,
      _calculateDynamicSafetyStock, _calculateZFactor, _getEffectiveLeadTime,
      effLeadTimeDefault, defaultLeadTimeDays, ssOverrideTruthy, withSSOverride,
      setOv, List.lookup, regenPhase, clearAlerts, _regenerateAlertsAndOrders,
      regenStep, regenAlert, regenUnits, regenCajas, arrivalsOn, manualPedidos,
      attachAlert, attachFirst, firstAlertDate, _recalculateProjections,
      recalcTransit, mergedOrders, sortByArrival, buildTransit, recalcAux,
      recalcOne, simulateMonth, (by decide : dayRange 0 2 = [0, 1, 2]), simDayStep,
      _updateMonthlyProjectionTotals, _updateMainProductMetrics,
      _recalculateArrivalDate, insertByArrival, transitStart, addTransit,
      round2, round_eq, Int.floor_eq_iff, Int.ceil_eq_iff, List.range_succ,
      List.range_zero, Int.toNat_ofNat, List.find?, List.getLast?, pW6]

/-- **C6 (amended).**  Replacing a month's positive safety-stock override by
a larger value *weakly* increases every month's reorder point (the override
month strictly in exact arithmetic, but 2-decimal rounding can collapse the
increase), leaving month keys, month ends and daily consumptions unchanged
(`RelRop` pairwise).  The regenerated first alert moves the *other* way than
the claim states: whenever the smaller-override run emits an alert the
larger-override run emits one too, and the larger-override run's first alert
is dated no later — an alert can only appear or move earlier, never be
delayed or removed to a later date. -/
theorem spec_c6_amended (monthKeyOf : ℤ → ℤ) (z sqrtFn : ℚ → ℚ) (p : Product)
    (k : ℤ) (a b : ℚ) (ha : 0 < a) (hab : a ≤ b) :
    List.Forall₂ RelRop
      (applyEffectiveParams z sqrtFn (withSSOverride p k a)).PROYECCIONES
      (applyEffectiveParams z sqrtFn (withSSOverride p k b)).PROYECCIONES ∧
    ((firstAlertDate (_regenerateAlertsAndOrders monthKeyOf
        (clearAlerts (applyEffectiveParams z sqrtFn (withSSOverride p k a))))).isSome →
      (firstAlertDate (_regenerateAlertsAndOrders monthKeyOf
        (clearAlerts (applyEffectiveParams z sqrtFn (withSSOverride p k b))))).isSome) ∧
    (∀ dA dB,
      firstAlertDate (_regenerateAlertsAndOrders monthKeyOf
        (clearAlerts (applyEffectiveParams z sqrtFn (withSSOverride p k a)))) = some dA →
      firstAlertDate (_regenerateAlertsAndOrders monthKeyOf
        (clearAlerts (applyEffectiveParams z sqrtFn (withSSOverride p k b)))) = some dB →
      dB ≤ dA) := by
  have hAE := applyEff_relRop z sqrtFn p k a b ha hab
  have hrel : List.Forall₂ RelRop
      (clearAlerts (applyEffectiveParams z sqrtFn (withSSOverride p k a))).PROYECCIONES
      (clearAlerts (applyEffectiveParams z sqrtFn (withSSOverride p k b))).PROYECCIONES :=
    relRop_clear_forall₂ hAE
  have hlt : ∀ m : ℤ,
      _getEffectiveLeadTime
        (clearAlerts (applyEffectiveParams z sqrtFn (withSSOverride p k a))).CONFIGURACION
        (some m) =
      _getEffectiveLeadTime
        (clearAlerts (applyEffectiveParams z sqrtFn (withSSOverride p k b))).CONFIGURACION
        (some m) := by
    intro m
    show _getEffectiveLeadTime (withSSOverride p k a).CONFIGURACION (some m) =
      _getEffectiveLeadTime (withSSOverride p k b).CONFIGURACION (some m)
    rw [effLT_withSSOverride, effLT_withSSOverride]
  have hcmp := regen_compare monthKeyOf
    (clearAlerts (applyEffectiveParams z sqrtFn (withSSOverride p k a)))
    (clearAlerts (applyEffectiveParams z sqrtFn (withSSOverride p k b)))
    rfl rfl rfl rfl hlt hrel
  exact ⟨hAE, hcmp.1, hcmp.2⟩

theorem spec_c6_witness :
    (0 : ℚ) < 3 ∧ (3 : ℚ) ≤ 5 ∧
    firstAlertDate (_regenerateAlertsAndOrders (fun _ => 0)
      (clearAlerts (applyEffectiveParams (fun _ => (0 : ℚ)) (fun q => q)
        (withSSOverride pW6 0 3)))) = some 1 ∧
    firstAlertDate (_regenerateAlertsAndOrders (fun _ => 0)
      (clearAlerts (applyEffectiveParams (fun _ => (0 : ℚ)) (fun q => q)
        (withSSOverride pW6 0 5)))) = some 0 ∧
    (0 : ℤ) ≤ 1 := by
  have hA : firstAlertDate (_regenerateAlertsAndOrders (fun _ => 0)
      (clearAlerts (applyEffectiveParams (fun _ => (0 : ℚ)) (fun q => q)
        (withSSOverride pW6 0 3)))) = some 1 := by
    norm_num [applyEffectiveParams, _getEffectiveSafetyStock,
      _calculateDynamicSafetyStock, _calculateZFactor, _getEffectiveLeadTime,
      effLeadTimeDefault, defaultLeadTimeDays, ssOverrideTruthy, withSSOverride,
      setOv, List.lookup, clearAlerts, _regenerateAlertsAndOrders, regenStep,
      regenAlert, regenUnits, regenCajas, arrivalsOn, manualPedidos,
      firstAlertDate, (by decide : dayRange 0 2 = [0, 1, 2]), round2, round_eq, Int.floor_eq_iff,
      Int.ceil_eq_iff, List.range_succ, List.range_zero, Int.toNat_ofNat,
      List.find?, List.getLast?, pW6]
  have hB : firstAlertDate (_regenerateAlertsAndOrders (fun _ => 0)
      (clearAlerts (applyEffectiveParams (fun _ => (0 : ℚ)) (fun q => q)
        (withSSOverride pW6 0 5)))) = some 0 := by
    norm_num [applyEffectiveParams, _getEffectiveSafetyStock,
      _calculateDynamicSafetyStock, _calculateZFactor, _getEffectiveLeadTime,
      effLeadTimeDefault, defaultLeadTimeDays, ssOverrideTruthy, withSSOverride,
      setOv, List.lookup, clearAlerts, _regenerateAlertsAndOrders, regenStep,
      regenAlert, regenUnits, regenCajas, arrivalsOn, manualPedidos,
      firstAlertDate, (by decide : dayRange 0 2 = [0, 1, 2]), round2, round_eq, Int.floor_eq_iff,
      Int.ceil_eq_iff, List.range_succ, List.range_zero, Int.toNat_ofNat,
      List.find?, List.getLast?, pW6]
  exact ⟨by norm_num, by norm_num, hA, hB,
    (spec_c6_amended (fun _ => 0) (fun _ => (0 : ℚ)) (fun q => q) pW6 0 3 5
      (by norm_num) (by norm_num)).2.2 1 0 hA hB⟩

end Plannink
